import Mathlib

/-! stat_ls: a shallow embedding of `ls.c`

The program is a small `ls` built on `stat(2)`.  This file embeds its five
functions (`print_mode`, `do_ls_file`, `do_ls_dir`, `do_ls`, `main`) as pure
Lean functions over an explicit environment (the file system and the identity
databases) and explicit output streams, and proves properties of them.

Conventions of the embedding

* A C string is the list of its characters, the terminating NUL left out;
  one list element stands for one `char`.
* `stdout` is the list of characters written so far; `stderr` is the list of
  `perror` calls made so far (label and `errno`).
* The char array `nome[NAME_MAX]` is a list of cells; a cell is indeterminate,
  NUL, or a character.  Reading a string that is not terminated inside the
  array, and `strncpy` past the end of the array, are undefined behaviour in C:
  the embedding returns `none` there.
* `ctime` may return NULL; the source passes its result to `strlen` unchecked,
  which is undefined behaviour as well: `none`.
* `printf` conversions are embedded one by one (`%-3ld`, `%-8.8s`, `%-8d`,
  `%8lld`); an unsigned argument printed through a signed conversion is
  reinterpreted in two's complement at the width of the conversion.
* `int noff = strlen(dname)` is a natural number: a command-line argument is
  far shorter than `2^31` characters.
* The local `struct stat s` of `do_ls_dir` is not initialised in the source;
  its initial content is the parameter `s0`.
* The file system does not change during a run: `stat` and `opendir` are
  functions of the path.
-/

namespace StatLs

/-! ## Platform constants (`<limits.h>`, `<sys/stat.h>`, `<stdlib.h>` on Linux) -/

/-- The content of a C string, without its terminating NUL. -/
abbrev CStr := List Char

/-- Value of `NAME_MAX` in `<limits.h>`. -/
def NAME_MAX : Nat := 255

/-- Value of `S_IFMT`, the mask of the file type bits. -/
def S_IFMT : Nat := 0o170000
/-- Value of `S_IFSOCK`. -/
def S_IFSOCK : Nat := 0o140000
/-- Value of `S_IFLNK`. -/
def S_IFLNK : Nat := 0o120000
/-- Value of `S_IFREG`. -/
def S_IFREG : Nat := 0o100000
/-- Value of `S_IFBLK`. -/
def S_IFBLK : Nat := 0o060000
/-- Value of `S_IFDIR`. -/
def S_IFDIR : Nat := 0o040000
/-- Value of `S_IFCHR`. -/
def S_IFCHR : Nat := 0o020000
/-- Value of `S_IFIFO`. -/
def S_IFIFO : Nat := 0o010000
/-- Value of `S_ISUID`. -/
def S_ISUID : Nat := 0o4000
/-- Value of `S_ISGID`. -/
def S_ISGID : Nat := 0o2000
/-- Value of `S_ISVTX`. -/
def S_ISVTX : Nat := 0o1000
/-- Value of `S_IRUSR`. -/
def S_IRUSR : Nat := 0o400
/-- Value of `S_IWUSR`. -/
def S_IWUSR : Nat := 0o200
/-- Value of `S_IXUSR`. -/
def S_IXUSR : Nat := 0o100
/-- Value of `S_IRGRP`. -/
def S_IRGRP : Nat := 0o040
/-- Value of `S_IWGRP`. -/
def S_IWGRP : Nat := 0o020
/-- Value of `S_IXGRP`. -/
def S_IXGRP : Nat := 0o010
/-- Value of `S_IROTH`. -/
def S_IROTH : Nat := 0o004
/-- Value of `S_IWOTH`. -/
def S_IWOTH : Nat := 0o002
/-- Value of `S_IXOTH`. -/
def S_IXOTH : Nat := 0o001

/-- Value of `EXIT_SUCCESS`. -/
def EXIT_SUCCESS : Nat := 0
/-- Value of `EXIT_FAILURE`. -/
def EXIT_FAILURE : Nat := 1

/-- The option bit of `-l` (`#define OPT_l 0x01`). -/
def OPT_l : Nat := 0x01
/-- The option bit of `-a` (`#define OPT_a 0x02`). -/
def OPT_a : Nat := 0x02

/-- The macro `flag(f)`: `((flags & f)?1:0)`, over the global `flags`. -/
def flag (flags f : Nat) : Nat := if flags &&& f ≠ 0 then 1 else 0

/-! ## Data model -/

/-- The fields of `struct stat` the program reads.  `st_mode`, `st_uid` and
`st_gid` are unsigned 32-bit, `st_nlink` is unsigned 64-bit, `st_size` is a
signed 64-bit `off_t`, `st_mtime` a `time_t`. -/
structure Stat where
  st_mode : Nat
  st_nlink : Nat
  st_uid : Nat
  st_gid : Nat
  st_size : Int
  st_mtime : Int
deriving DecidableEq, Repr

/-- One `perror(label)` call: the label and the value of `errno` it reports. -/
structure Diag where
  label : CStr
  errno : Nat
deriving DecidableEq, Repr

/-- The two output streams of the process. -/
structure Streams where
  out : List Char
  err : List Diag
deriving DecidableEq, Repr

/-- The world the program queries: `stat(2)`, `opendir(3)` followed by the
sequence of `d_name`s that `readdir(3)` yields until it returns NULL,
`getpwuid(3)`/`getgrgid(3)` (the `pw_name`/`gr_name` of the entry found, or
`none` for a NULL result) and `ctime(3)` (the text it returns, or `none` for
the NULL result it gives when the year does not fit an `int`).  Failing calls
of `stat` and `opendir` give their `errno`. -/
structure Env where
  stat : CStr → Except Nat Stat
  opendir : CStr → Except Nat (List CStr)
  getpwuid : Nat → Option CStr
  getgrgid : Nat → Option CStr
  ctime : Int → Option CStr

/-! ## `printf` and `perror` -/

/-- Append characters to `stdout`. -/
def puts (txt : List Char) (io : Streams) : Streams :=
  { io with out := io.out ++ txt }

/-- The call `perror(label)` with `errno = e`. -/
def perror (label : CStr) (e : Nat) (io : Streams) : Streams :=
  { io with err := io.err ++ [⟨label, e⟩] }

/-- Reading `w` bits as a two's complement signed integer. -/
def toSigned (w : Nat) (n : Nat) : Int :=
  if n % 2 ^ w < 2 ^ (w - 1) then ((n % 2 ^ w : Nat) : Int)
  else ((n % 2 ^ w : Nat) : Int) - ((2 ^ w : Nat) : Int)

/-- The bits of an `off_t` after the cast `(unsigned long long)`. -/
def toUnsigned64 (i : Int) : Nat := (i % ((2 ^ 64 : Nat) : Int)).toNat

/-- Decimal digits of a signed integer, as `%d` writes them. -/
def fmt_d (i : Int) : List Char :=
  if i < 0 then '-' :: Nat.toDigits 10 i.natAbs else Nat.toDigits 10 i.toNat

/-- Left-justify in a field of minimum width `w` (the `-` flag). -/
def padRight (w : Nat) (txt : List Char) : List Char :=
  txt ++ List.replicate (w - txt.length) ' '

/-- Right-justify in a field of minimum width `w`. -/
def padLeft (w : Nat) (txt : List Char) : List Char :=
  List.replicate (w - txt.length) ' ' ++ txt

/-- The conversion `%-3ld` applied to an unsigned 64-bit argument. -/
def fmt_ld_left3 (n : Nat) : List Char := padRight 3 (fmt_d (toSigned 64 n))

/-- The conversion `%-8.8s`. -/
def fmt_s_left8 (txt : CStr) : List Char := padRight 8 (txt.take 8)

/-- The conversion `%-8d` applied to an unsigned 32-bit argument. -/
def fmt_d_left8 (n : Nat) : List Char := padRight 8 (fmt_d (toSigned 32 n))

/-- The conversion `%8lld` applied to an unsigned 64-bit argument. -/
def fmt_lld_right8 (n : Nat) : List Char := padLeft 8 (fmt_d (toSigned 64 n))

/-! ## `print_mode` -/

/-- The function `print_mode` (ls.c, lines 45-130). -/
def print_mode (m : Nat) (io : Streams) : Streams :=
  let t := m &&& S_IFMT
  let ftype : Char :=
    if t = S_IFDIR then 'd'
    else if t = S_IFIFO then 'f'
    else if t = S_IFLNK then 'l'
    else if t = S_IFSOCK then 's'
    else if t = S_IFBLK then 'b'
    else if t = S_IFCHR then 'c'
    else if t = S_IFREG then '-'
    else '?'
  let io := puts [ftype] io
  -- User bits
  let io := if m &&& S_IRUSR ≠ 0 then puts ['r'] io else puts ['-'] io
  let io := if m &&& S_IWUSR ≠ 0 then puts ['w'] io else puts ['-'] io
  let io :=
    if m &&& S_ISUID ≠ 0 then
      (if m &&& S_IXUSR ≠ 0 then puts ['s'] io else puts ['S'] io)
    else
      (if m &&& S_IXUSR ≠ 0 then puts ['x'] io else puts ['-'] io)
  -- Group bits
  let io := if m &&& S_IRGRP ≠ 0 then puts ['r'] io else puts ['-'] io
  let io := if m &&& S_IWGRP ≠ 0 then puts ['w'] io else puts ['-'] io
  let io :=
    if m &&& S_ISGID ≠ 0 then
      (if m &&& S_IXGRP ≠ 0 then puts ['s'] io else puts ['S'] io)
    else
      (if m &&& S_IXGRP ≠ 0 then puts ['x'] io else puts ['-'] io)
  -- Other bits
  let io := if m &&& S_IROTH ≠ 0 then puts ['r'] io else puts ['-'] io
  let io := if m &&& S_IWOTH ≠ 0 then puts ['w'] io else puts ['-'] io
  let io :=
    if m &&& S_ISVTX ≠ 0 then
      (if m &&& S_IXOTH ≠ 0 then puts ['t'] io else puts ['T'] io)
    else
      (if m &&& S_IXOTH ≠ 0 then puts ['x'] io else puts ['-'] io)
  puts [' '] io

/-! ## `do_ls_file` -/

/-- The lines 150-151, `dt = ctime(&s.st_mtime), dt[strlen(dt)-1] = 0`: the
text of `ctime` without its last character.  When `ctime` returns NULL,
`strlen(dt)` reads through a null pointer, and for an empty text the
assignment writes before it: both are undefined, `none`. -/
def ctime_chopped (env : Env) (t : Int) : Option CStr :=
  match env.ctime t with
  | none => none
  | some [] => none
  | some (c :: cs) => some ((c :: cs).dropLast)

/-- The function `do_ls_file` (ls.c, lines 132-162).  The parameter `file` is
unused in the source as well.  The result is the return value and the
streams, or `none` when the run meets undefined behaviour. -/
def do_ls_file (flags : Nat) (env : Env) (s : Stat) (file fname : CStr)
    (io : Streams) : Option (Nat × Streams) :=
  let _ := file
  let lng : Option Streams :=
    if flag flags OPT_l ≠ 0 then
      let io := puts (' ' :: fmt_ld_left3 s.st_nlink) io
      let io :=
        match env.getpwuid s.st_uid with
        | some pw_name => puts (' ' :: fmt_s_left8 pw_name) io
        | none => puts (' ' :: fmt_d_left8 s.st_uid) io
      let io :=
        match env.getgrgid s.st_gid with
        | some gr_name => puts (' ' :: fmt_s_left8 gr_name) io
        | none => puts (' ' :: fmt_d_left8 s.st_gid) io
      match ctime_chopped env s.st_mtime with
      | none => none
      | some dt =>
        some (puts (' ' :: fmt_lld_right8 (toUnsigned64 s.st_size) ++ ' ' :: dt) io)
    else some io
  match lng with
  | none => none
  | some io => some (0, puts (' ' :: fname ++ ['\n']) io)

/-! ## The array `nome` -/

/-- One element of a `char` array: indeterminate (never written), the NUL
character, or another character. -/
inductive Cell where
  | undef
  | nul
  | ch (c : Char)
deriving DecidableEq, Repr

/-- A `char` array, as the list of its cells. -/
abbrev Buf := List Cell

/-- The call `strncpy(dst + off, src, n)`: exactly `n` cells are written, the
characters of `src` and then NULs; no NUL is written when `src` has `n`
characters or more.  A negative `n` converts to a `size_t` above `2^63`, and
a write past the end of the array is undefined: `none`. -/
def strncpy (dst : Buf) (off : Nat) (src : CStr) (n : Int) : Option Buf :=
  if n < 0 then none
  else if dst.length < off + n.toNat then none
  else
    some (dst.take off
      ++ (src.map Cell.ch ++ List.replicate (n.toNat - src.length) Cell.nul).take n.toNat
      ++ dst.drop (off + n.toNat))

/-- Reading the array as a C string, as `stat`, `perror` and `printf("%s")` do:
the characters before the first NUL.  Meeting an indeterminate cell or the end
of the array first is undefined: `none`. -/
def c_str : Buf → Option CStr
  | [] => none
  | Cell.undef :: _ => none
  | Cell.nul :: _ => some []
  | Cell.ch c :: rest =>
    match c_str rest with
    | none => none
    | some txt => some (c :: txt)

/-! ## `do_ls_dir` -/

/-- The test of the `continue` in the loop of `do_ls_dir` (lines 189-194):
`! flag(OPT_a) && (strcmp(".", d_name) == 0 || strcmp("..", d_name) == 0)`. -/
def hidden (flags : Nat) (d_name : CStr) : Prop :=
  flag flags OPT_a = 0 ∧ (d_name = ['.'] ∨ d_name = ['.', '.'])

instance (flags : Nat) (d_name : CStr) : Decidable (hidden flags d_name) := by
  unfold hidden; infer_instance

/-- The guard of line 172, `noff && noff < NAME_MAX`, where `noff` holds
`strlen(dname)`. -/
def header_guard (dname : CStr) : Prop :=
  dname.length ≠ 0 ∧ dname.length < NAME_MAX

instance (dname : CStr) : Decidable (header_guard dname) := by
  unfold header_guard; infer_instance

/-- The locals of `do_ls_dir` that change in its `while` loop, and the
streams. -/
structure DirState where
  nome : Buf
  s : Stat
  ret : Nat
  io : Streams

/-- One turn of the `while` loop of `do_ls_dir` (ls.c, lines 189-207), for the
entry `d_name` that `readdir` returned. -/
def do_ls_dir_body (flags : Nat) (env : Env) (noff : Nat) (st : DirState)
    (d_name : CStr) : Option DirState :=
  if hidden flags d_name then
    some st -- continue
  else
    match strncpy st.nome noff d_name ((NAME_MAX : Int) - (noff : Int)) with
    | none => none
    | some nome =>
      match c_str nome with
      | none => none
      | some path =>
        let sri : Stat × Nat × Streams :=
          match env.stat path with
          | Except.error e => (st.s, 1, perror path e st.io)
          | Except.ok s1 => (s1, st.ret, st.io)
        let s := sri.1
        let ret := sri.2.1
        let io := sri.2.2
        let io := if flag flags OPT_l ≠ 0 then print_mode s.st_mode io else io
        match do_ls_file flags env s path path io with
        | none => none
        | some r =>
          let ret := if r.1 ≠ 0 then 1 else ret
          some ⟨nome, s, ret, r.2⟩

/-- The `while` loop of `do_ls_dir` over the entries `readdir` yields. -/
def do_ls_dir_loop (flags : Nat) (env : Env) (noff : Nat) :
    DirState → List CStr → Option DirState
  | st, [] => some st
  | st, d_name :: rest =>
    match do_ls_dir_body flags env noff st d_name with
    | none => none
    | some st1 => do_ls_dir_loop flags env noff st1 rest

/-- The function `do_ls_dir` (ls.c, lines 164-212).  `s0` is the indeterminate
initial content of the local `struct stat s`; the parameter `ds` is unused in
the source as well.  The result is the return value and the streams, or `none`
when the run meets undefined behaviour. -/
def do_ls_dir (flags : Nat) (env : Env) (s0 : Stat) (ds : Stat) (dir dname : CStr)
    (io : Streams) : Option (Nat × Streams) :=
  let _ := ds
  let nome : Buf := List.replicate NAME_MAX Cell.undef
  let noff := dname.length
  let ret := 0
  let hdr : Option (Streams × Buf × Nat) :=
    if header_guard dname then
      let io := puts (dname ++ [':', '\n']) io
      match strncpy nome 0 dname (NAME_MAX : Int) with
      | none => none
      | some nome => some (io, nome.set noff (Cell.ch '/'), noff + 1)
    else some (io, nome, noff)
  match hdr with
  | none => none
  | some (io, nome, noff) =>
    match env.opendir dir with
    | Except.error e =>
      some (1, if noff ≠ 0 then perror dname e io else perror dir e io)
    | Except.ok entries =>
      match do_ls_dir_loop flags env noff ⟨nome, s0, ret, io⟩ entries with
      | none => none
      | some st => some (st.ret, st.io)

/-! ## `do_ls` and `main` -/

/-- The function `do_ls` (ls.c, lines 214-242). -/
def do_ls (flags : Nat) (env : Env) (s0 : Stat) (arg aname : CStr)
    (io : Streams) : Option (Nat × Streams) :=
  match env.stat arg with
  | Except.error e => some (1, perror aname e io)
  | Except.ok s =>
    if s.st_mode &&& S_IFMT = S_IFDIR then
      do_ls_dir flags env s0 s arg aname io
    else
      let io := if flag flags OPT_l ≠ 0 then print_mode s.st_mode io else io
      do_ls_file flags env s arg aname io

/-- The `for` loop of `main` (ls.c, lines 278-281) over `argv[optind..argc)`. -/
def main_loop (flags : Nat) (env : Env) (s0 : Stat) :
    List CStr → Nat → Streams → Option (Nat × Streams)
  | [], ret, io => some (ret, io)
  | a :: rest, ret, io =>
    match do_ls flags env s0 a a io with
    | none => none
    | some r => main_loop flags env s0 rest (if r.1 ≠ 0 then EXIT_FAILURE else ret) r.2

/-- The function `main` from line 273 on, once the `getopt` loop has left the
options in `flags`; `args` are the positional arguments `argv[optind..argc)`.
The result is the exit status and the streams. -/
def main (flags : Nat) (env : Env) (s0 : Stat) (args : List CStr) :
    Option (Nat × Streams) :=
  let ret := EXIT_SUCCESS
  if args = [] then
    match do_ls flags env s0 ['.'] [] ⟨[], []⟩ with
    | none => none
    | some r => some (if r.1 ≠ 0 then EXIT_FAILURE else ret, r.2)
  else
    main_loop flags env s0 args ret ⟨[], []⟩

/-! ## What one directory listing writes

The definitions below describe the effect of `do_ls_dir` without the array
`nome`, and the runs that meet no undefined behaviour.  The theorems
`do_ls_dir_eq` and `do_ls_dir_none` prove that the embedding of the source
computes them on exactly those runs. -/

/-- The characters that line 173 writes, if any. -/
def dir_header (dname : CStr) : List Char :=
  if header_guard dname then dname ++ [':', '\n'] else []

/-- The value of `noff` when the loop starts. -/
def dir_noff (dname : CStr) : Nat :=
  if header_guard dname then dname.length + 1 else dname.length

/-- The content of `nome[0..noff)` when the loop starts and `noff` is inside
the array. -/
def dir_pfx (dname : CStr) : CStr :=
  if header_guard dname then dname ++ ['/'] else []

/-- Every child that is not skipped leaves room for its name and the
terminating NUL behind `nome[0..noff)`. -/
def joins_fit (flags : Nat) (dname : CStr) (entries : List CStr) : Prop :=
  ∀ d ∈ entries, ¬ hidden flags d → dir_noff dname + d.length < NAME_MAX

instance (flags : Nat) (dname : CStr) (entries : List CStr) :
    Decidable (joins_fit flags dname entries) := by
  unfold joins_fit; infer_instance

/-- Rendering the metadata `s` meets no undefined behaviour: under `-l`,
`ctime` returns a non-empty text for `s.st_mtime`. -/
def time_ok (flags : Nat) (env : Env) (s : Stat) : Prop :=
  flag flags OPT_l ≠ 0 → (ctime_chopped env s.st_mtime).isSome = true

instance (flags : Nat) (env : Env) (s : Stat) : Decidable (time_ok flags env s) := by
  unfold time_ok; infer_instance

/-- The characters written for one entry before its name, when `time_ok`
holds: nothing without `-l`; under `-l` the mode string of `print_mode` and the
fields of `do_ls_file`. -/
def entry_fields (flags : Nat) (env : Env) (s : Stat) : List Char :=
  if flag flags OPT_l ≠ 0 then
    (print_mode s.st_mode ⟨[], []⟩).out
      ++ ' ' :: fmt_ld_left3 s.st_nlink
      ++ ' ' :: (match env.getpwuid s.st_uid with
                 | some pw_name => fmt_s_left8 pw_name
                 | none => fmt_d_left8 s.st_uid)
      ++ ' ' :: (match env.getgrgid s.st_gid with
                 | some gr_name => fmt_s_left8 gr_name
                 | none => fmt_d_left8 s.st_gid)
      ++ ' ' :: fmt_lld_right8 (toUnsigned64 s.st_size)
      ++ ' ' :: (ctime_chopped env s.st_mtime).getD []
  else []

/-- The characters the Renderer writes for one entry, when `time_ok` holds:
the fields, a space, the name and a newline. -/
def render_entry (flags : Nat) (env : Env) (s : Stat) (name : CStr) : List Char :=
  entry_fields flags env s ++ ' ' :: name ++ ['\n']

/-- The content of the local `s` after `stat(path, &s)`: the new metadata, or
the old content when the call fails. -/
def stat_into (env : Env) (s : Stat) (path : CStr) : Stat :=
  match env.stat path with
  | Except.ok s1 => s1
  | Except.error _ => s

/-- The lines written for the entries of a directory, in order; `pfx` is the
content of `nome[0..noff)` and `s` the content of the local `s` so far. -/
def entry_lines (flags : Nat) (env : Env) (pfx : CStr) : Stat → List CStr → List (List Char)
  | _, [] => []
  | s, d :: rest =>
    if hidden flags d then entry_lines flags env pfx s rest
    else
      render_entry flags env (stat_into env s (pfx ++ d)) (pfx ++ d)
        :: entry_lines flags env pfx (stat_into env s (pfx ++ d)) rest

/-- The `perror` calls made for the entries of a directory, in order. -/
def entry_diags (flags : Nat) (env : Env) (pfx : CStr) : List CStr → List Diag
  | [] => []
  | d :: rest =>
    if hidden flags d then entry_diags flags env pfx rest
    else
      match env.stat (pfx ++ d) with
      | Except.ok _ => entry_diags flags env pfx rest
      | Except.error e => ⟨pfx ++ d, e⟩ :: entry_diags flags env pfx rest

/-- The loop over `entries` meets no undefined behaviour: every child that is
not skipped fits the array behind `nome[0..noff)`, and the metadata it is
rendered with (its own, or the content `s` left in the local when its `stat`
fails) satisfies `time_ok`. -/
def entries_defined (flags : Nat) (env : Env) (noff : Nat) (pfx : CStr) :
    Stat → List CStr → Bool
  | _, [] => true
  | s, d :: rest =>
    if hidden flags d then entries_defined flags env noff pfx s rest
    else
      decide (noff + d.length < NAME_MAX)
        && decide (time_ok flags env (stat_into env s (pfx ++ d)))
        && entries_defined flags env noff pfx (stat_into env s (pfx ++ d)) rest

/-- The array holds the characters `pfx` in its first cells. -/
def BufOk (pfx : CStr) (nome : Buf) : Prop :=
  nome.length = NAME_MAX ∧ nome.take pfx.length = pfx.map Cell.ch

/-- Prepending what was already written to the streams of a loop state. -/
def shift (io0 : Streams) (st : DirState) : DirState :=
  { st with io := ⟨io0.out ++ st.io.out, io0.err ++ st.io.err⟩ }

/-- Prepending what was already written to the streams of a result. -/
def shift_result (io0 : Streams) (r : Nat × Streams) : Nat × Streams :=
  (r.1, ⟨io0.out ++ r.2.out, io0.err ++ r.2.err⟩)

/-- The calls `do_ls(arg, aname)` that `main` makes, in order, as pairs
`(arg, aname)`: `do_ls(".", "")` without positional arguments, and
`do_ls(argv[i], argv[i])` for each of them otherwise. -/
def effective_targets (args : List CStr) : List (CStr × CStr) :=
  if args = [] then [(['.'], [])] else args.map (fun a => (a, a))

/-- The listing of the directory `dir` under the display name `dname` meets no
undefined behaviour: when the directory can be opened, `entries_defined` holds
for what it yields.  `s0` is the initial content of the local `s`. -/
def dir_defined (flags : Nat) (env : Env) (s0 : Stat) (dir dname : CStr) : Prop :=
  match env.opendir dir with
  | Except.ok entries =>
    entries_defined flags env (dir_noff dname) (dir_pfx dname) s0 entries = true
  | Except.error _ => True

instance (flags : Nat) (env : Env) (s0 : Stat) (dir dname : CStr) :
    Decidable (dir_defined flags env s0 dir dname) := by
  unfold dir_defined; split <;> infer_instance

/-- The listing of the target `t = (arg, aname)` meets no undefined behaviour:
`dir_defined` when it resolves as a directory, `time_ok` when it resolves as
anything else. -/
def target_defined (flags : Nat) (env : Env) (s0 : Stat) (t : CStr × CStr) : Prop :=
  match env.stat t.1 with
  | Except.ok s =>
    if s.st_mode &&& S_IFMT = S_IFDIR then dir_defined flags env s0 t.1 t.2
    else time_ok flags env s
  | Except.error _ => True

instance (flags : Nat) (env : Env) (s0 : Stat) (t : CStr × CStr) :
    Decidable (target_defined flags env s0 t) := by
  unfold target_defined; split
  · split <;> infer_instance
  · infer_instance

/-- A reportable error occurs for the target `t = (arg, aname)`: its resolution
fails, or it is a directory that cannot be opened, or it is a directory with a
child that is not skipped and whose resolution fails. -/
def reportable_error (flags : Nat) (env : Env) (t : CStr × CStr) : Prop :=
  (∃ e, env.stat t.1 = Except.error e) ∨
  (∃ s, env.stat t.1 = Except.ok s ∧ s.st_mode &&& S_IFMT = S_IFDIR ∧
    ((∃ e, env.opendir t.1 = Except.error e) ∨
     (∃ entries, env.opendir t.1 = Except.ok entries ∧
        ∃ d ∈ entries, ¬ hidden flags d ∧ ∃ e, env.stat (dir_pfx t.2 ++ d) = Except.error e)))

/-- A child of the current directory resolves alike under its name and under
its name behind `./`, as it does in every file system. -/
def dot_resolves_alike (env : Env) : Prop :=
  ∀ entries, env.opendir ['.'] = Except.ok entries →
    ∀ d ∈ entries, env.stat (['.', '/'] ++ d) = env.stat d

/-! ## A concrete file system -/

/-- Metadata of a directory: mode `drwxr-xr-x`, owned by uid 0 and gid 0. -/
def dirStat : Stat := ⟨0o040755, 2, 0, 0, 4096, 0⟩

/-- Metadata of the regular file `a` of the scenario: mode `rw-r--r--`, one
link, five bytes. -/
def fileStat : Stat := ⟨0o100644, 1, 0, 0, 5, 0⟩

/-- A modification time whose year does not fit an `int`. -/
def farTime : Int := 67768036191676800

/-- Metadata of an empty regular file whose modification time is `farTime`. -/
def farStat : Stat := ⟨0o100644, 1, 0, 0, 0, farTime⟩

/-- A child name of 254 characters, one less than a directory entry may have. -/
def longChild : CStr := List.replicate 254 'a'

/-- A directory name of 255 characters. -/
def longDir : CStr := List.replicate 255 'n'

/-- A file system.  The current directory and `d` hold the regular file `a`
and the directory `b`; `e` holds `x`, a symbolic link to nothing; `f` holds
`longChild`; `g` holds the regular file `z`, whose modification time is
`farTime`; `longDir` is an empty directory; `q` does not exist.  `stat` fails
with `ENOENT` (2), `opendir` with `ENOTDIR` (20).  `ctime` returns NULL from
`farTime` on and below the least time whose year fits an `int`; the other
modification times of this file system are all 0, whose text in UTC it
returns. -/
def fsEnv : Env where
  stat := fun p =>
    if p = ".".toList ∨ p = "./.".toList ∨ p = "./..".toList ∨ p = "..".toList
        ∨ p = "b".toList ∨ p = "./b".toList
        ∨ p = "d".toList ∨ p = "d/.".toList ∨ p = "d/..".toList ∨ p = "d/b".toList
        ∨ p = "e".toList ∨ p = "e/.".toList ∨ p = "e/..".toList
        ∨ p = "f".toList ∨ p = "f/.".toList ∨ p = "f/..".toList
        ∨ p = "g".toList ∨ p = "g/.".toList ∨ p = "g/..".toList
        ∨ p = longDir then
      Except.ok dirStat
    else if p = "a".toList ∨ p = "./a".toList ∨ p = "d/a".toList then
      Except.ok fileStat
    else if p = "g/z".toList then Except.ok farStat
    else Except.error 2
  opendir := fun p =>
    if p = ".".toList ∨ p = "d".toList then
      Except.ok [".".toList, "..".toList, "a".toList, "b".toList]
    else if p = "e".toList then Except.ok [".".toList, "..".toList, "x".toList]
    else if p = "f".toList then Except.ok [".".toList, "..".toList, longChild]
    else if p = "g".toList then Except.ok [".".toList, "..".toList, "z".toList]
    else if p = longDir then Except.ok [".".toList, "..".toList]
    else Except.error 20
  getpwuid := fun u => if u = 0 then some "root".toList else none
  getgrgid := fun g => if g = 0 then some "root".toList else none
  ctime := fun t =>
    if farTime ≤ t ∨ t < -67768040609740800 then none
    else some "Thu Jan  1 00:00:00 1970\n".toList

/-! ## Theorems -/



theorem c_str_map_ch_append (l : CStr) (rest : Buf) :
    c_str (l.map Cell.ch ++ rest) = (c_str rest).map (fun txt => l ++ txt) := by
  induction l with
  | nil => simp
  | cons c l ih =>
    cases h : c_str rest <;> simp [c_str, ih, h]

theorem c_str_replicate_nul (k : Nat) (hk : 0 < k) :
    c_str (List.replicate k Cell.nul) = some [] := by
  cases k with
  | zero => omega
  | succ k => simp [List.replicate_succ, c_str]

theorem strncpy_fit (pfx d : CStr) (nome : Buf) (hb : BufOk pfx nome)
    (hfit : pfx.length + d.length < NAME_MAX) :
    ∃ nome1, strncpy nome pfx.length d ((NAME_MAX : Int) - (pfx.length : Int)) = some nome1
      ∧ BufOk pfx nome1 ∧ c_str nome1 = some (pfx ++ d) := by
  obtain ⟨hlen, htake⟩ := hb
  have hn : ((NAME_MAX : Int) - (pfx.length : Int)).toNat = NAME_MAX - pfx.length := by
    omega
  have hnn : ¬ ((NAME_MAX : Int) - (pfx.length : Int)) < 0 := by omega
  have hle : ¬ nome.length < pfx.length + (NAME_MAX - pfx.length) := by omega
  have hdrop : nome.drop (pfx.length + (NAME_MAX - pfx.length)) = [] := by
    apply List.drop_eq_nil_of_le; omega
  have htk : (d.map Cell.ch ++ List.replicate (NAME_MAX - pfx.length - d.length) Cell.nul).take
      (NAME_MAX - pfx.length)
      = d.map Cell.ch ++ List.replicate (NAME_MAX - pfx.length - d.length) Cell.nul := by
    apply List.take_of_length_le
    simp only [List.length_append, List.length_map, List.length_replicate]
    omega
  refine ⟨pfx.map Cell.ch ++ (d.map Cell.ch
      ++ List.replicate (NAME_MAX - pfx.length - d.length) Cell.nul), ?_, ⟨?_, ?_⟩, ?_⟩
  · simp only [strncpy, hnn, if_false, hn, hle, htake, htk, hdrop, List.append_nil,
      List.append_assoc]
  · simp only [List.length_append, List.length_map, List.length_replicate]
    omega
  · rw [List.take_left']
    simp
  · rw [c_str_map_ch_append, c_str_map_ch_append, c_str_replicate_nul _ (by omega)]
    simp

theorem and_bit_ne_zero (m c k : Nat) (h : c = 2 ^ k) :
    (m &&& c ≠ 0) ↔ m.testBit k = true := by
  subst h
  rw [Nat.and_two_pow]
  cases h : m.testBit k <;> simp

theorem puts_ite (c : Prop) [Decidable c] (a b : List Char) (io : Streams) :
    (if c then puts a io else puts b io) = puts (if c then a else b) io := by
  split <;> rfl

theorem ite_singleton (c : Prop) [Decidable c] (a b : Char) :
    (if c then [a] else [b]) = [if c then a else b] := by
  split <;> rfl

theorem puts_puts (a b : List Char) (io : Streams) :
    puts b (puts a io) = puts (a ++ b) io := by
  simp [puts, List.append_assoc]

/-- C1: for every mode value `m`, `print_mode` appends to `stdout` exactly ten mode
characters and then one space, and writes nothing to `stderr`. -/
theorem print_mode_spec (m : Nat) (io : Streams) :
    print_mode m io =
      { out := io.out ++
          [ (if m &&& S_IFMT = S_IFDIR then 'd'
             else if m &&& S_IFMT = S_IFLNK then 'l'
             else if m &&& S_IFMT = S_IFSOCK then 's'
             else if m &&& S_IFMT = S_IFBLK then 'b'
             else if m &&& S_IFMT = S_IFCHR then 'c'
             else if m &&& S_IFMT = S_IFIFO then 'f'
             else if m &&& S_IFMT = S_IFREG then '-'
             else '?'),
            (if m.testBit 8 then 'r' else '-'),
            (if m.testBit 7 then 'w' else '-'),
            (if m.testBit 11 then (if m.testBit 6 then 's' else 'S')
             else (if m.testBit 6 then 'x' else '-')),
            (if m.testBit 5 then 'r' else '-'),
            (if m.testBit 4 then 'w' else '-'),
            (if m.testBit 10 then (if m.testBit 3 then 's' else 'S')
             else (if m.testBit 3 then 'x' else '-')),
            (if m.testBit 2 then 'r' else '-'),
            (if m.testBit 1 then 'w' else '-'),
            (if m.testBit 9 then (if m.testBit 0 then 't' else 'T')
             else (if m.testBit 0 then 'x' else '-')),
            ' ' ],
        err := io.err } := by
  have h8 : (m &&& S_IRUSR ≠ 0) ↔ m.testBit 8 = true :=
    and_bit_ne_zero m _ 8 (by norm_num [S_IRUSR])
  have h7 : (m &&& S_IWUSR ≠ 0) ↔ m.testBit 7 = true :=
    and_bit_ne_zero m _ 7 (by norm_num [S_IWUSR])
  have h6 : (m &&& S_IXUSR ≠ 0) ↔ m.testBit 6 = true :=
    and_bit_ne_zero m _ 6 (by norm_num [S_IXUSR])
  have h5 : (m &&& S_IRGRP ≠ 0) ↔ m.testBit 5 = true :=
    and_bit_ne_zero m _ 5 (by norm_num [S_IRGRP])
  have h4 : (m &&& S_IWGRP ≠ 0) ↔ m.testBit 4 = true :=
    and_bit_ne_zero m _ 4 (by norm_num [S_IWGRP])
  have h3 : (m &&& S_IXGRP ≠ 0) ↔ m.testBit 3 = true :=
    and_bit_ne_zero m _ 3 (by norm_num [S_IXGRP])
  have h2 : (m &&& S_IROTH ≠ 0) ↔ m.testBit 2 = true :=
    and_bit_ne_zero m _ 2 (by norm_num [S_IROTH])
  have h1 : (m &&& S_IWOTH ≠ 0) ↔ m.testBit 1 = true :=
    and_bit_ne_zero m _ 1 (by norm_num [S_IWOTH])
  have h0 : (m &&& S_IXOTH ≠ 0) ↔ m.testBit 0 = true :=
    and_bit_ne_zero m _ 0 (by norm_num [S_IXOTH])
  have h11 : (m &&& S_ISUID ≠ 0) ↔ m.testBit 11 = true :=
    and_bit_ne_zero m _ 11 (by norm_num [S_ISUID])
  have h10 : (m &&& S_ISGID ≠ 0) ↔ m.testBit 10 = true :=
    and_bit_ne_zero m _ 10 (by norm_num [S_ISGID])
  have h9 : (m &&& S_ISVTX ≠ 0) ↔ m.testBit 9 = true :=
    and_bit_ne_zero m _ 9 (by norm_num [S_ISVTX])
  simp only [print_mode, h0, h1, h2, h3, h4, h5, h6, h7, h8, h9, h10, h11, puts_ite]
  simp only [ite_singleton]
  simp only [puts_puts, List.cons_append, List.nil_append]
  simp only [puts, Streams.mk.injEq, and_true,
    List.append_cancel_left_eq, List.cons.injEq, true_and]
  generalize m &&& S_IFMT = t
  simp only [S_IFDIR, S_IFIFO, S_IFLNK, S_IFSOCK, S_IFBLK, S_IFCHR, S_IFREG]
  split_ifs <;> first | rfl | (exfalso; omega)

theorem print_mode_puts (m : Nat) (io : Streams) :
    print_mode m io = puts (print_mode m ⟨[], []⟩).out io := by
  simp only [print_mode, puts_ite]
  simp only [puts_puts]
  simp [puts]

theorem render_entry_puts (flags : Nat) (env : Env) (s : Stat) (file name : CStr)
    (io : Streams) (ht : time_ok flags env s) :
    do_ls_file flags env s file name
        (if flag flags OPT_l ≠ 0 then print_mode s.st_mode io else io)
      = some (0, puts (render_entry flags env s name) io) := by
  unfold do_ls_file render_entry entry_fields
  by_cases hl : flag flags OPT_l ≠ 0
  · have hsome := ht hl
    obtain ⟨dt, hdt⟩ := Option.isSome_iff_exists.mp hsome
    rw [if_pos hl, if_pos hl, if_pos hl, print_mode_puts]
    cases hp : env.getpwuid s.st_uid <;> cases hg : env.getgrgid s.st_gid <;>
      simp [hdt, puts, List.append_assoc]
  · rw [if_neg hl, if_neg hl, if_neg hl]
    simp [puts]

theorem render_entry_none (flags : Nat) (env : Env) (s : Stat) (file name : CStr)
    (io : Streams) (ht : ¬ time_ok flags env s) :
    do_ls_file flags env s file name
        (if flag flags OPT_l ≠ 0 then print_mode s.st_mode io else io) = none := by
  unfold time_ok at ht
  push_neg at ht
  obtain ⟨hl, hn⟩ := ht
  have hnone : ctime_chopped env s.st_mtime = none := by
    cases h : ctime_chopped env s.st_mtime with
    | none => rfl
    | some dt => rw [h] at hn; simp at hn
  unfold do_ls_file
  rw [if_pos hl, if_pos hl]
  simp only [hnone]

theorem do_ls_dir_body_hidden (flags : Nat) (env : Env) (noff : Nat) (st : DirState)
    (d : CStr) (hh : hidden flags d) :
    do_ls_dir_body flags env noff st d = some st := by
  unfold do_ls_dir_body
  rw [if_pos hh]

theorem do_ls_dir_body_fit (flags : Nat) (env : Env) (pfx d : CStr) (st : DirState)
    (hb : BufOk pfx st.nome) (hv : ¬ hidden flags d)
    (hfit : pfx.length + d.length < NAME_MAX)
    (ht : time_ok flags env (stat_into env st.s (pfx ++ d))) :
    ∃ st1, do_ls_dir_body flags env pfx.length st d = some st1 ∧
      BufOk pfx st1.nome ∧
      st1.s = stat_into env st.s (pfx ++ d) ∧
      st1.ret = (match env.stat (pfx ++ d) with
              | Except.ok _ => st.ret
              | Except.error _ => 1) ∧
      st1.io =
        ⟨st.io.out ++ render_entry flags env (stat_into env st.s (pfx ++ d)) (pfx ++ d),
         st.io.err ++ (match env.stat (pfx ++ d) with
              | Except.ok _ => []
              | Except.error e => [⟨pfx ++ d, e⟩])⟩ := by
  obtain ⟨nome1, hcpy, hb1, hstr⟩ := strncpy_fit pfx d st.nome hb hfit
  unfold do_ls_dir_body
  rw [if_neg hv]
  simp only [hcpy, hstr]
  cases hs : env.stat (pfx ++ d) with
  | error e =>
    simp only [stat_into, hs] at ht
    simp only [stat_into, hs, render_entry_puts flags env _ _ _ _ ht]
    exact ⟨_, rfl, hb1, rfl, by simp, by simp [puts, perror]⟩
  | ok s1 =>
    simp only [stat_into, hs] at ht
    simp only [stat_into, hs, render_entry_puts flags env _ _ _ _ ht]
    exact ⟨_, rfl, hb1, rfl, by simp, by simp [puts]⟩

theorem do_ls_dir_body_time (flags : Nat) (env : Env) (pfx d : CStr) (st : DirState)
    (hb : BufOk pfx st.nome) (hv : ¬ hidden flags d)
    (hfit : pfx.length + d.length < NAME_MAX)
    (ht : ¬ time_ok flags env (stat_into env st.s (pfx ++ d))) :
    do_ls_dir_body flags env pfx.length st d = none := by
  obtain ⟨nome1, hcpy, hb1, hstr⟩ := strncpy_fit pfx d st.nome hb hfit
  unfold do_ls_dir_body
  rw [if_neg hv]
  simp only [hcpy, hstr]
  cases hs : env.stat (pfx ++ d) with
  | error e =>
    simp only [stat_into, hs] at ht
    simp only [render_entry_none flags env _ _ _ _ ht]
  | ok s1 =>
    simp only [stat_into, hs] at ht
    simp only [render_entry_none flags env _ _ _ _ ht]

theorem do_ls_dir_loop_fit (flags : Nat) (env : Env) (pfx : CStr) (entries : List CStr) :
    ∀ st : DirState, BufOk pfx st.nome →
      entries_defined flags env pfx.length pfx st.s entries = true →
      ∃ st1, do_ls_dir_loop flags env pfx.length st entries = some st1 ∧
        st1.ret = (if entry_diags flags env pfx entries = [] then st.ret else 1) ∧
        st1.io = ⟨st.io.out ++ (entry_lines flags env pfx st.s entries).flatten,
                  st.io.err ++ entry_diags flags env pfx entries⟩ := by
  induction entries with
  | nil =>
    intro st _ _
    exact ⟨st, rfl, by simp [entry_diags], by simp [entry_lines, entry_diags]⟩
  | cons d rest ih =>
    intro st hb hdef
    by_cases hh : hidden flags d
    · simp only [entries_defined, if_pos hh] at hdef
      obtain ⟨st1, h1, h2, h3⟩ := ih st hb hdef
      refine ⟨st1, ?_, ?_, ?_⟩
      · simp only [do_ls_dir_loop, do_ls_dir_body_hidden flags env _ st d hh, h1]
      · simp only [entry_diags, if_pos hh, h2]
      · simp only [entry_lines, entry_diags, if_pos hh, h3]
    · simp only [entries_defined, if_neg hh, Bool.and_eq_true, decide_eq_true_eq] at hdef
      obtain ⟨⟨hfit, ht⟩, hrest⟩ := hdef
      obtain ⟨st0, hbody, hb1, hs0, hr0, hio0⟩ :=
        do_ls_dir_body_fit flags env pfx d st hb hh hfit ht
      rw [← hs0] at hrest
      obtain ⟨st1, h1, h2, h3⟩ := ih st0 hb1 hrest
      refine ⟨st1, ?_, ?_, ?_⟩
      · simp only [do_ls_dir_loop, hbody, h1]
      · rw [h2, hr0]
        simp only [entry_diags, if_neg hh]
        cases hs : env.stat (pfx ++ d) <;> simp
      · rw [h3, hio0, hs0]
        simp only [entry_lines, entry_diags, if_neg hh, List.flatten_cons, List.append_assoc]
        cases hs : env.stat (pfx ++ d) <;> simp

theorem do_ls_dir_loop_hidden (flags : Nat) (env : Env) (noff : Nat) (st : DirState)
    (entries : List CStr) (hh : ∀ d ∈ entries, hidden flags d) :
    do_ls_dir_loop flags env noff st entries = some st := by
  induction entries with
  | nil => rfl
  | cons d rest ih =>
    simp only [do_ls_dir_loop, do_ls_dir_body_hidden flags env noff st d
      (hh d (List.mem_cons_self _ _))]
    exact ih (fun d1 h1 => hh d1 (List.mem_cons_of_mem _ h1))

theorem entry_lines_hidden (flags : Nat) (env : Env) (pfx : CStr) (s : Stat)
    (entries : List CStr) (hh : ∀ d ∈ entries, hidden flags d) :
    entry_lines flags env pfx s entries = [] := by
  induction entries with
  | nil => rfl
  | cons d rest ih =>
    simp only [entry_lines, if_pos (hh d (List.mem_cons_self _ _))]
    exact ih (fun d1 h1 => hh d1 (List.mem_cons_of_mem _ h1))

theorem entry_diags_hidden (flags : Nat) (env : Env) (pfx : CStr)
    (entries : List CStr) (hh : ∀ d ∈ entries, hidden flags d) :
    entry_diags flags env pfx entries = [] := by
  induction entries with
  | nil => rfl
  | cons d rest ih =>
    simp only [entry_diags, if_pos (hh d (List.mem_cons_self _ _))]
    exact ih (fun d1 h1 => hh d1 (List.mem_cons_of_mem _ h1))

theorem strncpy_dname (dname : CStr) (hlen : dname.length < NAME_MAX) :
    strncpy (List.replicate NAME_MAX Cell.undef) 0 dname (NAME_MAX : Int)
      = some (dname.map Cell.ch ++ List.replicate (NAME_MAX - dname.length) Cell.nul) := by
  have hnn : ¬ ((NAME_MAX : Nat) : Int) < 0 := by omega
  have htk : (dname.map Cell.ch ++ List.replicate (NAME_MAX - dname.length) Cell.nul).take
      NAME_MAX = dname.map Cell.ch ++ List.replicate (NAME_MAX - dname.length) Cell.nul := by
    apply List.take_of_length_le
    simp only [List.length_append, List.length_map, List.length_replicate]
    omega
  have hdrop : (List.replicate NAME_MAX Cell.undef).drop NAME_MAX = [] := by
    apply List.drop_eq_nil_of_le; simp
  simp only [strncpy, hnn, if_false, Int.toNat_ofNat, List.length_replicate, Nat.zero_add,
    Nat.lt_irrefl, List.take_zero, List.nil_append, htk, hdrop, List.append_nil]

theorem bufok_header (dname : CStr) (hlen : dname.length < NAME_MAX) :
    BufOk (dname ++ ['/'])
      ((dname.map Cell.ch ++ List.replicate (NAME_MAX - dname.length) Cell.nul).set
        dname.length (Cell.ch '/')) := by
  obtain ⟨k, hk⟩ : ∃ k, NAME_MAX - dname.length = k + 1 :=
    ⟨NAME_MAX - dname.length - 1, by omega⟩
  have hset : (dname.map Cell.ch ++ List.replicate (NAME_MAX - dname.length) Cell.nul).set
        dname.length (Cell.ch '/')
      = (dname ++ ['/']).map Cell.ch ++ List.replicate k Cell.nul := by
    rw [hk, List.replicate_succ, List.set_append_right _ _ (by simp)]
    simp
  rw [hset]
  constructor
  · simp only [List.length_append, List.length_map, List.length_replicate,
      List.length_singleton]
    omega
  · rw [List.take_left']
    simp

set_option maxRecDepth 100000 in
theorem do_ls_dir_open_fail (flags : Nat) (env : Env) (s0 ds : Stat) (dir dname : CStr)
    (io : Streams) (e : Nat) (hopen : env.opendir dir = Except.error e) :
    do_ls_dir flags env s0 ds dir dname io
      = some (1, ⟨io.out ++ dir_header dname,
          io.err ++ [⟨if dname.length ≠ 0 then dname else dir, e⟩]⟩) := by
  unfold do_ls_dir dir_header
  by_cases hg : header_guard dname
  · have hg1 := hg
    obtain ⟨h0, h1⟩ := hg1
    simp only [strncpy_dname dname h1, hopen, if_pos hg]
    simp [puts, perror, h0]
  · simp only [hopen, if_neg hg]
    by_cases h0 : dname.length = 0 <;> simp [perror, h0]

theorem c_str_map_ch (l : CStr) : c_str (l.map Cell.ch) = none := by
  have h := c_str_map_ch_append l []
  simpa [c_str] using h

theorem do_ls_dir_body_overlong (flags : Nat) (env : Env) (pfx d : CStr) (st : DirState)
    (hb : BufOk pfx st.nome) (hv : ¬ hidden flags d) (hp : pfx.length ≤ NAME_MAX)
    (hlong : NAME_MAX ≤ pfx.length + d.length) :
    do_ls_dir_body flags env pfx.length st d = none := by
  obtain ⟨hlen, htake⟩ := hb
  have hn : ((NAME_MAX : Int) - (pfx.length : Int)).toNat = NAME_MAX - pfx.length := by
    omega
  have hnn : ¬ ((NAME_MAX : Int) - (pfx.length : Int)) < 0 := by omega
  have hle : ¬ st.nome.length < pfx.length + (NAME_MAX - pfx.length) := by omega
  have hdrop : st.nome.drop (pfx.length + (NAME_MAX - pfx.length)) = [] := by
    apply List.drop_eq_nil_of_le; omega
  have hz : NAME_MAX - pfx.length - d.length = 0 := by omega
  have htk : (d.map Cell.ch ++ List.replicate (NAME_MAX - pfx.length - d.length) Cell.nul).take
      (NAME_MAX - pfx.length) = (d.take (NAME_MAX - pfx.length)).map Cell.ch := by
    rw [hz, List.replicate_zero, List.append_nil, List.map_take]
  have hcpy : strncpy st.nome pfx.length d ((NAME_MAX : Int) - (pfx.length : Int))
      = some ((pfx ++ d.take (NAME_MAX - pfx.length)).map Cell.ch) := by
    simp only [strncpy, hnn, if_false, hn, hle, htake, htk, hdrop, List.append_nil,
      List.map_append]
  unfold do_ls_dir_body
  rw [if_neg hv]
  simp only [hcpy, c_str_map_ch]

theorem do_ls_dir_body_long_dname (flags : Nat) (env : Env) (noff : Nat) (s : Stat)
    (ret : Nat) (io : Streams) (d : CStr) (hv : ¬ hidden flags d) (hn : NAME_MAX ≤ noff) :
    do_ls_dir_body flags env noff ⟨List.replicate NAME_MAX Cell.undef, s, ret, io⟩ d
      = none := by
  unfold do_ls_dir_body
  rw [if_neg hv]
  by_cases hlt : NAME_MAX < noff
  · have hneg : ((NAME_MAX : Int) - (noff : Int)) < 0 := by omega
    simp only [strncpy, hneg, if_true]
  · have he : noff = NAME_MAX := by omega
    subst he
    have hcpy : strncpy (List.replicate NAME_MAX Cell.undef) NAME_MAX d
        ((NAME_MAX : Int) - (NAME_MAX : Int)) = some (List.replicate NAME_MAX Cell.undef) := by
      simp [strncpy]
    have hstr : c_str (List.replicate NAME_MAX Cell.undef) = none := by
      have : NAME_MAX = 254 + 1 := rfl
      rw [this, List.replicate_succ]
      rfl
    simp only [hcpy, hstr]

theorem do_ls_dir_loop_long_dname (flags : Nat) (env : Env) (noff : Nat) (s : Stat)
    (ret : Nat) (io : Streams) (hn : NAME_MAX ≤ noff) (entries : List CStr)
    (hex : ∃ d ∈ entries, ¬ hidden flags d) :
    do_ls_dir_loop flags env noff ⟨List.replicate NAME_MAX Cell.undef, s, ret, io⟩ entries
      = none := by
  induction entries with
  | nil => obtain ⟨d, hd, _⟩ := hex; simp at hd
  | cons c rest ih =>
    by_cases hh : hidden flags c
    · simp only [do_ls_dir_loop, do_ls_dir_body_hidden flags env _ _ c hh]
      apply ih
      obtain ⟨d, hd, hv⟩ := hex
      rcases List.mem_cons.mp hd with rfl | hd
      · exact absurd hh hv
      · exact ⟨d, hd, hv⟩
    · simp only [do_ls_dir_loop, do_ls_dir_body_long_dname flags env noff s ret io c hh hn]

theorem entries_defined_hidden (flags : Nat) (env : Env) (noff : Nat) (pfx : CStr)
    (s : Stat) (entries : List CStr) (hh : ∀ d ∈ entries, hidden flags d) :
    entries_defined flags env noff pfx s entries = true := by
  induction entries with
  | nil => rfl
  | cons d rest ih =>
    simp only [entries_defined, if_pos (hh d (List.mem_cons_self _ _))]
    exact ih (fun d1 h1 => hh d1 (List.mem_cons_of_mem _ h1))

theorem entries_defined_fits (flags : Nat) (env : Env) (noff : Nat) (pfx : CStr)
    (entries : List CStr) :
    ∀ s : Stat, entries_defined flags env noff pfx s entries = true →
      ∀ d ∈ entries, ¬ hidden flags d → noff + d.length < NAME_MAX := by
  induction entries with
  | nil => intro s _ d hd; simp at hd
  | cons c rest ih =>
    intro s hdef d hd hv
    by_cases hh : hidden flags c
    · simp only [entries_defined, if_pos hh] at hdef
      rcases List.mem_cons.mp hd with rfl | hd
      · exact absurd hh hv
      · exact ih s hdef d hd hv
    · simp only [entries_defined, if_neg hh, Bool.and_eq_true, decide_eq_true_eq] at hdef
      rcases List.mem_cons.mp hd with rfl | hd
      · exact hdef.1.1
      · exact ih _ hdef.2 d hd hv

theorem do_ls_dir_loop_none (flags : Nat) (env : Env) (pfx : CStr)
    (hp : pfx.length ≤ NAME_MAX) (entries : List CStr) :
    ∀ st : DirState, BufOk pfx st.nome →
      entries_defined flags env pfx.length pfx st.s entries = false →
      do_ls_dir_loop flags env pfx.length st entries = none := by
  induction entries with
  | nil => intro st _ h; simp [entries_defined] at h
  | cons c rest ih =>
    intro st hb hdef
    by_cases hh : hidden flags c
    · simp only [entries_defined, if_pos hh] at hdef
      simp only [do_ls_dir_loop, do_ls_dir_body_hidden flags env _ st c hh]
      exact ih st hb hdef
    · by_cases hf : pfx.length + c.length < NAME_MAX
      · by_cases ht : time_ok flags env (stat_into env st.s (pfx ++ c))
        · obtain ⟨st1, hbody, hb1, hs1, _⟩ :=
            do_ls_dir_body_fit flags env pfx c st hb hh hf ht
          simp only [entries_defined, if_neg hh, hf, ht, decide_True, Bool.true_and] at hdef
          rw [← hs1] at hdef
          simp only [do_ls_dir_loop, hbody]
          exact ih st1 hb1 hdef
        · simp only [do_ls_dir_loop, do_ls_dir_body_time flags env pfx c st hb hh hf ht]
      · simp only [do_ls_dir_loop,
          do_ls_dir_body_overlong flags env pfx c st hb hh hp (by omega)]

set_option maxRecDepth 100000 in
theorem do_ls_dir_eq (flags : Nat) (env : Env) (s0 ds : Stat) (dir dname : CStr)
    (io : Streams) (entries : List CStr) (hopen : env.opendir dir = Except.ok entries)
    (hdef : entries_defined flags env (dir_noff dname) (dir_pfx dname) s0 entries = true) :
    do_ls_dir flags env s0 ds dir dname io
      = some (if entry_diags flags env (dir_pfx dname) entries = [] then 0 else 1,
          ⟨io.out ++ dir_header dname
              ++ (entry_lines flags env (dir_pfx dname) s0 entries).flatten,
           io.err ++ entry_diags flags env (dir_pfx dname) entries⟩) := by
  unfold do_ls_dir
  by_cases hg : header_guard dname
  · have hg1 := hg
    obtain ⟨h0, h1⟩ := hg1
    have hpl : (dname ++ ['/']).length = dname.length + 1 := by simp
    simp only [dir_noff, dir_pfx, if_pos hg] at hdef
    rw [← hpl] at hdef
    obtain ⟨st1, hl1, h2, h3⟩ := do_ls_dir_loop_fit flags env (dname ++ ['/']) entries
      ⟨(dname.map Cell.ch ++ List.replicate (NAME_MAX - dname.length) Cell.nul).set
        dname.length (Cell.ch '/'), s0, 0, puts (dname ++ [':', '\n']) io⟩
      (bufok_header dname h1) hdef
    rw [hpl] at hl1
    simp only [strncpy_dname dname h1, hopen, hl1, h2, h3,
      dir_pfx, dir_header, if_pos hg]
    simp [puts, List.append_assoc]
  · simp only [hopen, dir_pfx, dir_header, if_neg hg, List.append_nil]
    simp only [dir_noff, dir_pfx, if_neg hg] at hdef
    by_cases h0 : dname.length = 0
    · rw [h0] at hdef
      obtain ⟨st1, h1, h2, h3⟩ := do_ls_dir_loop_fit flags env [] entries
        ⟨List.replicate NAME_MAX Cell.undef, s0, 0, io⟩
        ⟨by simp, by simp⟩ hdef
      rw [h0]
      simp only [List.length_nil] at h1
      simp only [h1, h2, h3]
    · have hlen : NAME_MAX ≤ dname.length := by
        by_contra hc
        exact hg ⟨h0, by omega⟩
      have hh : ∀ d ∈ entries, hidden flags d := by
        intro d hd
        by_contra hv
        have := entries_defined_fits flags env _ _ entries s0 hdef d hd hv
        omega
      rw [do_ls_dir_loop_hidden flags env _ _ entries hh,
        entry_lines_hidden flags env _ _ entries hh,
        entry_diags_hidden flags env _ entries hh]
      simp

set_option maxRecDepth 100000 in
theorem do_ls_dir_none (flags : Nat) (env : Env) (s0 ds : Stat) (dir dname : CStr)
    (io : Streams) (entries : List CStr) (hopen : env.opendir dir = Except.ok entries)
    (hdef : entries_defined flags env (dir_noff dname) (dir_pfx dname) s0 entries = false) :
    do_ls_dir flags env s0 ds dir dname io = none := by
  unfold do_ls_dir
  by_cases hg : header_guard dname
  · have hg1 := hg
    obtain ⟨h0, h1⟩ := hg1
    have hpl : (dname ++ ['/']).length = dname.length + 1 := by simp
    simp only [dir_noff, dir_pfx, if_pos hg] at hdef
    rw [← hpl] at hdef
    have hloop := do_ls_dir_loop_none flags env (dname ++ ['/']) (by rw [hpl]; omega)
      entries
      ⟨(dname.map Cell.ch ++ List.replicate (NAME_MAX - dname.length) Cell.nul).set
        dname.length (Cell.ch '/'), s0, 0, puts (dname ++ [':', '\n']) io⟩
      (bufok_header dname h1) hdef
    rw [hpl] at hloop
    simp only [strncpy_dname dname h1, hopen, hloop, if_pos hg]
  · simp only [hopen, if_neg hg]
    simp only [dir_noff, dir_pfx, if_neg hg] at hdef
    by_cases h0 : dname.length = 0
    · rw [h0] at hdef
      have hloop := do_ls_dir_loop_none flags env [] (by simp) entries
        ⟨List.replicate NAME_MAX Cell.undef, s0, 0, io⟩ ⟨by simp, by simp⟩ hdef
      rw [h0]
      simp only [List.length_nil] at hloop
      simp only [hloop]
    · have hlen : NAME_MAX ≤ dname.length := by
        by_contra hc
        exact hg ⟨h0, by omega⟩
      have hex : ∃ d ∈ entries, ¬ hidden flags d := by
        by_contra hc
        push_neg at hc
        rw [entries_defined_hidden flags env _ _ s0 entries hc] at hdef
        cases hdef
      simp only [do_ls_dir_loop_long_dname flags env dname.length s0 0 io hlen entries hex]

theorem do_ls_dir_undefined (flags : Nat) (env : Env) (s0 ds : Stat) (dir dname : CStr)
    (io : Streams) (entries : List CStr) (hopen : env.opendir dir = Except.ok entries)
    (hnf : ¬ joins_fit flags dname entries) :
    do_ls_dir flags env s0 ds dir dname io = none := by
  apply do_ls_dir_none flags env s0 ds dir dname io entries hopen
  cases h : entries_defined flags env (dir_noff dname) (dir_pfx dname) s0 entries with
  | false => rfl
  | true => exact absurd (entries_defined_fits flags env _ _ entries s0 h) hnf

theorem do_ls_dir_body_shift (flags : Nat) (env : Env) (noff : Nat) (io0 : Streams)
    (st : DirState) (d : CStr) :
    do_ls_dir_body flags env noff (shift io0 st) d
      = (do_ls_dir_body flags env noff st d).map (shift io0) := by
  unfold do_ls_dir_body
  by_cases hh : hidden flags d
  · simp [hh]
  · simp only [if_neg hh]
    have hn : (shift io0 st).nome = st.nome := rfl
    rw [hn]
    cases hc : strncpy st.nome noff d ((NAME_MAX : Int) - (noff : Int)) with
    | none => rfl
    | some nome1 =>
      cases hs : c_str nome1 with
      | none => simp only [hs, Option.map_none']
      | some path =>
        cases hst : env.stat path with
        | error e =>
          by_cases ht : time_ok flags env st.s
          · have ht1 : time_ok flags env (shift io0 st).s := ht
            simp only [hs, hst, render_entry_puts flags env _ _ _ _ ht,
              render_entry_puts flags env _ _ _ _ ht1, Option.map_some']
            simp [shift, puts, perror, List.append_assoc]
          · have ht1 : ¬ time_ok flags env (shift io0 st).s := ht
            simp only [hs, hst, render_entry_none flags env _ _ _ _ ht,
              render_entry_none flags env _ _ _ _ ht1, Option.map_none']
        | ok s1 =>
          by_cases ht : time_ok flags env s1
          · simp only [hs, hst, render_entry_puts flags env _ _ _ _ ht, Option.map_some']
            simp [shift, puts, List.append_assoc]
          · simp only [hs, hst, render_entry_none flags env _ _ _ _ ht, Option.map_none']

theorem do_ls_dir_loop_shift (flags : Nat) (env : Env) (noff : Nat) (io0 : Streams)
    (entries : List CStr) :
    ∀ st : DirState, do_ls_dir_loop flags env noff (shift io0 st) entries
      = (do_ls_dir_loop flags env noff st entries).map (shift io0) := by
  induction entries with
  | nil => intro st; rfl
  | cons d rest ih =>
    intro st
    simp only [do_ls_dir_loop, do_ls_dir_body_shift]
    cases hb : do_ls_dir_body flags env noff st d with
    | none => rfl
    | some st1 => simp only [Option.map_some', ih]

set_option maxRecDepth 100000 in
theorem do_ls_dir_shift (flags : Nat) (env : Env) (s0 ds : Stat) (dir dname : CStr)
    (io : Streams) :
    do_ls_dir flags env s0 ds dir dname io
      = (do_ls_dir flags env s0 ds dir dname ⟨[], []⟩).map (shift_result io) := by
  have key : ∀ (nome : Buf) (noff : Nat) (pre : List Char),
      (match env.opendir dir with
        | Except.error e =>
          some (1, if noff ≠ 0 then perror dname e (puts pre io) else perror dir e (puts pre io))
        | Except.ok entries =>
          match do_ls_dir_loop flags env noff ⟨nome, s0, 0, puts pre io⟩ entries with
          | none => none
          | some st => some (st.ret, st.io))
      = Option.map (shift_result io)
        (match env.opendir dir with
        | Except.error e =>
          some (1, if noff ≠ 0 then perror dname e (puts pre ⟨[], []⟩)
                   else perror dir e (puts pre ⟨[], []⟩))
        | Except.ok entries =>
          match do_ls_dir_loop flags env noff ⟨nome, s0, 0, puts pre ⟨[], []⟩⟩ entries with
          | none => none
          | some st => some (st.ret, st.io)) := by
    intro nome noff pre
    cases ho : env.opendir dir with
    | error e =>
      by_cases h0 : noff = 0 <;> simp [h0, shift_result, perror, puts]
    | ok entries =>
      have hst : (⟨nome, s0, 0, puts pre io⟩ : DirState)
          = shift io ⟨nome, s0, 0, puts pre ⟨[], []⟩⟩ := by
        simp [shift, puts]
      simp only [hst, do_ls_dir_loop_shift]
      cases hl : do_ls_dir_loop flags env noff ⟨nome, s0, 0, puts pre ⟨[], []⟩⟩ entries with
      | none => rfl
      | some st1 => simp [shift, shift_result]
  have hio : ∀ x : Streams, x = puts [] x := by intro x; simp [puts]
  unfold do_ls_dir
  by_cases hg : header_guard dname
  · simp only [if_pos hg]
    cases hc : strncpy (List.replicate NAME_MAX Cell.undef) 0 dname (NAME_MAX : Int) with
    | none => rfl
    | some nome1 => exact key _ _ _
  · simp only [if_neg hg]
    have := key (List.replicate NAME_MAX Cell.undef) dname.length []
    rw [← hio io, ← hio ⟨[], []⟩] at this
    exact this

theorem do_ls_shift (flags : Nat) (env : Env) (s0 : Stat) (arg aname : CStr)
    (io : Streams) :
    do_ls flags env s0 arg aname io
      = (do_ls flags env s0 arg aname ⟨[], []⟩).map (shift_result io) := by
  unfold do_ls
  cases hs : env.stat arg with
  | error e => simp [shift_result, perror]
  | ok s =>
    by_cases hd : s.st_mode &&& S_IFMT = S_IFDIR
    · simp only [if_pos hd]
      exact do_ls_dir_shift flags env s0 s arg aname io
    · by_cases ht : time_ok flags env s
      · simp only [if_neg hd, render_entry_puts flags env _ _ _ _ ht]
        simp [shift_result, puts]
      · simp only [if_neg hd, render_entry_none flags env _ _ _ _ ht, Option.map_none']

theorem entry_diags_ne_nil_iff (flags : Nat) (env : Env) (pfx : CStr)
    (entries : List CStr) :
    entry_diags flags env pfx entries ≠ [] ↔
      ∃ d ∈ entries, ¬ hidden flags d ∧ ∃ e, env.stat (pfx ++ d) = Except.error e := by
  induction entries with
  | nil => simp [entry_diags]
  | cons d rest ih =>
    by_cases hh : hidden flags d
    · simp only [entry_diags, if_pos hh, ih, List.mem_cons, exists_eq_or_imp]
      constructor
      · intro h; exact Or.inr h
      · rintro (⟨hv, _⟩ | h)
        · exact absurd hh hv
        · exact h
    · simp only [entry_diags, if_neg hh, List.mem_cons, exists_eq_or_imp]
      cases hs : env.stat (pfx ++ d) with
      | error e =>
        simp only [ne_eq, reduceCtorEq, not_false_eq_true, true_iff]
        exact Or.inl ⟨hh, e, rfl⟩
      | ok s1 =>
        simp only [ih]
        constructor
        · intro h; exact Or.inr h
        · rintro (⟨_, e, he⟩ | h)
          · cases he
          · exact h

theorem do_ls_stat_error (flags : Nat) (env : Env) (s0 : Stat) (arg aname : CStr)
    (io : Streams) (e : Nat) (hs : env.stat arg = Except.error e) :
    do_ls flags env s0 arg aname io = some (1, ⟨io.out, io.err ++ [⟨aname, e⟩]⟩) := by
  unfold do_ls
  simp [hs, perror]

theorem do_ls_not_dir (flags : Nat) (env : Env) (s0 : Stat) (arg aname : CStr)
    (io : Streams) (s : Stat) (hs : env.stat arg = Except.ok s)
    (hd : ¬ s.st_mode &&& S_IFMT = S_IFDIR) (ht : time_ok flags env s) :
    do_ls flags env s0 arg aname io
      = some (0, ⟨io.out ++ render_entry flags env s aname, io.err⟩) := by
  unfold do_ls
  simp only [hs, if_neg hd, render_entry_puts flags env _ _ _ _ ht]
  simp [puts]

theorem do_ls_is_dir (flags : Nat) (env : Env) (s0 : Stat) (arg aname : CStr)
    (io : Streams) (s : Stat) (hs : env.stat arg = Except.ok s)
    (hd : s.st_mode &&& S_IFMT = S_IFDIR) :
    do_ls flags env s0 arg aname io = do_ls_dir flags env s0 s arg aname io := by
  unfold do_ls
  simp only [hs, if_pos hd]

theorem dir_defined_ok (flags : Nat) (env : Env) (s0 : Stat) (dir dname : CStr)
    (entries : List CStr) (hdef : dir_defined flags env s0 dir dname)
    (ho : env.opendir dir = Except.ok entries) :
    entries_defined flags env (dir_noff dname) (dir_pfx dname) s0 entries = true := by
  unfold dir_defined at hdef
  rw [ho] at hdef
  exact hdef

theorem target_defined_dir (flags : Nat) (env : Env) (s0 : Stat) (t : CStr × CStr)
    (s : Stat) (hdef : target_defined flags env s0 t) (hs : env.stat t.1 = Except.ok s)
    (hd : s.st_mode &&& S_IFMT = S_IFDIR) : dir_defined flags env s0 t.1 t.2 := by
  unfold target_defined at hdef
  rw [hs] at hdef
  simpa only [if_pos hd] using hdef

theorem target_defined_file (flags : Nat) (env : Env) (s0 : Stat) (t : CStr × CStr)
    (s : Stat) (hdef : target_defined flags env s0 t) (hs : env.stat t.1 = Except.ok s)
    (hd : ¬ s.st_mode &&& S_IFMT = S_IFDIR) : time_ok flags env s := by
  unfold target_defined at hdef
  rw [hs] at hdef
  simpa only [if_neg hd] using hdef

theorem do_ls_defined (flags : Nat) (env : Env) (s0 : Stat) (t : CStr × CStr)
    (hfit : target_defined flags env s0 t) :
    ∃ r, do_ls flags env s0 t.1 t.2 ⟨[], []⟩ = some r ∧ (r.1 = 0 ∨ r.1 = 1) ∧
      (r.1 ≠ 0 ↔ reportable_error flags env t) := by
  cases hs : env.stat t.1 with
  | error e =>
    refine ⟨_, do_ls_stat_error flags env s0 t.1 t.2 _ e hs, Or.inr rfl, ?_⟩
    simp only [ne_eq, one_ne_zero, not_false_eq_true, true_iff]
    exact Or.inl ⟨e, hs⟩
  | ok s =>
    by_cases hd : s.st_mode &&& S_IFMT = S_IFDIR
    · rw [do_ls_is_dir flags env s0 t.1 t.2 _ s hs hd]
      cases ho : env.opendir t.1 with
      | error e =>
        refine ⟨_, do_ls_dir_open_fail flags env s0 s t.1 t.2 _ e ho, Or.inr rfl, ?_⟩
        simp only [ne_eq, one_ne_zero, not_false_eq_true, true_iff]
        exact Or.inr ⟨s, hs, hd, Or.inl ⟨e, ho⟩⟩
      | ok entries =>
        refine ⟨_, do_ls_dir_eq flags env s0 s t.1 t.2 _ entries ho
          (dir_defined_ok flags env s0 t.1 t.2 entries
            (target_defined_dir flags env s0 t s hfit hs hd) ho),
          ?_, ?_⟩
        · by_cases hn : entry_diags flags env (dir_pfx t.2) entries = [] <;> simp [hn]
        · have hiff := entry_diags_ne_nil_iff flags env (dir_pfx t.2) entries
          by_cases hn : entry_diags flags env (dir_pfx t.2) entries = []
          · simp only [hn, if_true, ne_eq, not_true_eq_false, false_iff]
            rintro (⟨e, he⟩ | ⟨s1, hs1, _, ⟨e, he⟩ | ⟨en, hen, hex⟩⟩)
            · rw [hs] at he; cases he
            · rw [ho] at he; cases he
            · rw [ho] at hen; cases hen
              exact (hiff.mpr hex) hn
          · simp only [hn, if_false, ne_eq, one_ne_zero, not_false_eq_true, true_iff]
            exact Or.inr ⟨s, hs, hd, Or.inr ⟨entries, ho, hiff.mp hn⟩⟩
    · refine ⟨_, do_ls_not_dir flags env s0 t.1 t.2 _ s hs hd
        (target_defined_file flags env s0 t s hfit hs hd), Or.inl rfl, ?_⟩
      simp only [ne_eq, not_true_eq_false, false_iff]
      rintro (⟨e, he⟩ | ⟨s1, hs1, hd1, _⟩)
      · rw [hs] at he; cases he
      · rw [hs] at hs1; cases hs1; exact hd hd1

theorem main_loop_results (flags : Nat) (env : Env) (s0 : Stat) (args : List CStr) :
    ∀ (ret : Nat) (io : Streams), (∀ a ∈ args, target_defined flags env s0 (a, a)) →
      ∃ results : List (Nat × Streams),
        List.Forall₂ (fun t r => do_ls flags env s0 t.1 t.2 ⟨[], []⟩ = some r ∧
            (r.1 ≠ 0 ↔ reportable_error flags env t))
          (args.map (fun a => (a, a))) results ∧
        main_loop flags env s0 args ret io
          = some (if results.all (fun r => r.1 == 0) then ret else EXIT_FAILURE,
              ⟨io.out ++ (results.map (fun r => r.2.out)).flatten,
               io.err ++ (results.map (fun r => r.2.err)).flatten⟩) := by
  induction args with
  | nil =>
    intro ret io _
    exact ⟨[], List.Forall₂.nil, by simp [main_loop]⟩
  | cons a rest ih =>
    intro ret io hfit
    obtain ⟨r, hr, _, hiff⟩ := do_ls_defined flags env s0 (a, a)
      (hfit a (List.mem_cons_self _ _))
    obtain ⟨results, hall, hloop⟩ :=
      ih (if r.1 ≠ 0 then EXIT_FAILURE else ret) (shift_result io r).2
        (fun a1 h1 => hfit a1 (List.mem_cons_of_mem _ h1))
    refine ⟨r :: results, List.Forall₂.cons ⟨hr, hiff⟩ hall, ?_⟩
    have hstep : do_ls flags env s0 a a io = some (shift_result io r) := by
      rw [do_ls_shift]
      simp only at hr
      rw [hr]
      rfl
    simp only [main_loop, hstep]
    have h1 : (shift_result io r).1 = r.1 := rfl
    rw [h1, hloop]
    simp only [shift_result, List.map_cons, List.flatten_cons, List.append_assoc,
      List.all_cons]
    congr 2
    by_cases h0 : r.1 = 0
    · simp only [h0, ne_eq, not_true_eq_false, if_false, beq_self_eq_true, Bool.true_and]
    · by_cases hall0 : (results.all fun r => r.1 == 0) = true <;> simp [h0, hall0]

theorem results_fail_iff (flags : Nat) (env : Env) (s0 : Stat) (ts : List (CStr × CStr))
    (results : List (Nat × Streams))
    (h : List.Forall₂ (fun t r => do_ls flags env s0 t.1 t.2 ⟨[], []⟩ = some r ∧
            (r.1 ≠ 0 ↔ reportable_error flags env t)) ts results) :
    (results.all (fun r => r.1 == 0) = false) ↔ ∃ t ∈ ts, reportable_error flags env t := by
  induction h with
  | nil => simp
  | @cons t r ts1 rs1 hab _ ih =>
    simp only [List.all_cons, Bool.and_eq_false_imp, beq_iff_eq, List.mem_cons,
      exists_eq_or_imp]
    constructor
    · intro hh
      by_cases h0 : r.1 = 0
      · exact Or.inr (ih.mp (hh h0))
      · exact Or.inl (hab.2.mp h0)
    · rintro (hre | hex)
      · intro h0
        exact absurd h0 (hab.2.mpr hre)
      · intro _
        exact ih.mpr hex

/-- On the runs that meet no undefined behaviour, `main` runs `do_ls` on every
target in order, whatever the earlier targets returned, and the exit status
is `EXIT_FAILURE` if and only if a reportable error occurred for some
target. -/
theorem main_exit_status (flags : Nat) (env : Env) (s0 : Stat) (args : List CStr)
    (hfit : ∀ t ∈ effective_targets args, target_defined flags env s0 t) :
    ∃ (results : List (Nat × Streams)) (status : Nat),
      List.Forall₂ (fun t r => do_ls flags env s0 t.1 t.2 ⟨[], []⟩ = some r)
        (effective_targets args) results ∧
      main flags env s0 args
        = some (status, ⟨(results.map (fun r => r.2.out)).flatten,
                         (results.map (fun r => r.2.err)).flatten⟩) ∧
      (status = EXIT_SUCCESS ∨ status = EXIT_FAILURE) ∧
      (status ≠ 0 ↔ ∃ t ∈ effective_targets args, reportable_error flags env t) := by
  by_cases ha : args = []
  · subst ha
    have ht : effective_targets [] = [(['.'], [])] := rfl
    rw [ht] at hfit ⊢
    obtain ⟨r, hr, h01, hiff⟩ := do_ls_defined flags env s0 (['.'], [])
      (hfit _ (List.mem_cons_self _ _))
    refine ⟨[r], if r.1 ≠ 0 then EXIT_FAILURE else EXIT_SUCCESS,
      List.Forall₂.cons hr List.Forall₂.nil, ?_, ?_, ?_⟩
    · simp only at hr
      simp [main, hr]
    · by_cases h : r.1 ≠ 0 <;> simp [h]
    · simp only [List.mem_singleton, exists_eq_left, ← hiff]
      by_cases h : r.1 ≠ 0 <;> simp [h, EXIT_FAILURE, EXIT_SUCCESS]
  · have ht : effective_targets args = args.map (fun a => (a, a)) := by
      simp [effective_targets, ha]
    rw [ht] at hfit ⊢
    obtain ⟨results, hall, hloop⟩ := main_loop_results flags env s0 args EXIT_SUCCESS ⟨[], []⟩
      (fun a h => hfit (a, a) (List.mem_map_of_mem _ h))
    have hiff := results_fail_iff flags env s0 _ results hall
    refine ⟨results, if results.all (fun r => r.1 == 0) then EXIT_SUCCESS else EXIT_FAILURE,
      ?_, ?_, ?_, ?_⟩
    · exact hall.imp (fun _ _ h => h.1)
    · simp only [main, if_neg ha, hloop, List.nil_append]
    · by_cases h : (results.all fun r => r.1 == 0) = true <;> simp [h]
    · rw [← hiff]
      by_cases h : (results.all fun r => r.1 == 0) = true <;>
        simp [h, EXIT_FAILURE, EXIT_SUCCESS]

theorem entry_lines_shown (flags : Nat) (env : Env) (pfx : CStr) (entries : List CStr) :
    ∀ s : Stat, List.Forall₂
      (fun d line => ∃ s1, line = render_entry flags env s1 (pfx ++ d))
      (entries.filter (fun d => decide (¬ hidden flags d)))
      (entry_lines flags env pfx s entries) := by
  induction entries with
  | nil => intro s; exact List.Forall₂.nil
  | cons d rest ih =>
    intro s
    by_cases hh : hidden flags d
    · simp only [entry_lines, if_pos hh, List.filter_cons, hh, not_true_eq_false,
        decide_False, Bool.false_eq_true, if_false]
      exact ih s
    · simp only [entry_lines, if_neg hh, List.filter_cons, hh, not_false_eq_true,
        decide_True, if_true]
      exact List.Forall₂.cons ⟨_, rfl⟩ (ih _)

/-- On the runs that meet no undefined behaviour: for a directory whose
iteration yields `.` and `..` once each and the children `others` (none of
them named `.` or `..`), `do_ls_dir` writes after the header exactly one entry
line per child that is not skipped, in order; a child is skipped if and only
if `-a` is off and its name is exactly `.` or `..`. -/
theorem do_ls_dir_skips_dot_entries (flags : Nat) (env : Env) (s0 ds : Stat)
    (dir dname : CStr) (io : Streams) (entries others : List CStr)
    (hopen : env.opendir dir = Except.ok entries)
    (hperm : entries.Perm (['.'] :: ['.', '.'] :: others))
    (hothers : ['.'] ∉ others ∧ ['.', '.'] ∉ others)
    (hdef : entries_defined flags env (dir_noff dname) (dir_pfx dname) s0 entries = true) :
    ∃ (ret : Nat) (err : List Diag) (shown : List CStr) (lines : List (List Char)),
      do_ls_dir flags env s0 ds dir dname io
        = some (ret, ⟨io.out ++ dir_header dname ++ lines.flatten, err⟩) ∧
      shown = entries.filter
        (fun d => decide (¬ (flag flags OPT_a = 0 ∧ (d = ['.'] ∨ d = ['.', '.'])))) ∧
      List.Forall₂ (fun d line => ∃ s, line = render_entry flags env s (dir_pfx dname ++ d))
        shown lines ∧
      (flag flags OPT_a = 0 →
        lines.length = others.length ∧ ['.'] ∉ shown ∧ ['.', '.'] ∉ shown) ∧
      (flag flags OPT_a ≠ 0 →
        lines.length = others.length + 2 ∧
          shown.countP (fun d => decide (d = ['.'])) = 1 ∧
          shown.countP (fun d => decide (d = ['.', '.'])) = 1) := by
  have hall := entry_lines_shown flags env (dir_pfx dname) entries s0
  refine ⟨_, _, _, _, do_ls_dir_eq flags env s0 ds dir dname io entries hopen hdef, rfl,
    hall, ?_, ?_⟩
  · intro ha
    have hlen := hall.length_eq
    have hfp := hperm.filter (fun d => decide (¬ hidden flags d))
    have hfo : others.filter (fun d => decide (¬ hidden flags d)) = others := by
      apply List.filter_eq_self.mpr
      intro d hd
      simp only [hidden, ha, true_and, not_or, decide_eq_true_eq]
      constructor
      · rintro rfl; exact hothers.1 hd
      · rintro rfl; exact hothers.2 hd
    have hf2 : (['.'] :: ['.', '.'] :: others).filter (fun d => decide (¬ hidden flags d))
        = others := by
      simp only [List.filter_cons, hidden, ha, true_and] 
      simpa [hidden, ha] using hfo
    rw [hf2] at hfp
    refine ⟨?_, ?_, ?_⟩
    · rw [← hlen]; exact hfp.length_eq
    · intro hmem
      have := List.of_mem_filter hmem
      simp [hidden, ha] at this
    · intro hmem
      have := List.of_mem_filter hmem
      simp [hidden, ha] at this
  · intro ha
    have hlen := hall.length_eq
    have hfe : entries.filter (fun d => decide (¬ hidden flags d)) = entries := by
      apply List.filter_eq_self.mpr
      intro d _
      simp [hidden, ha]
    have hfe2 : entries.filter
        (fun d => decide (¬ (flag flags OPT_a = 0 ∧ (d = ['.'] ∨ d = ['.', '.'])))) = entries :=
      hfe
    rw [hfe2]
    rw [hfe] at hlen
    refine ⟨?_, ?_, ?_⟩
    · rw [← hlen, hperm.length_eq]; simp
    · rw [hperm.countP_eq]
      have : List.countP (fun d => decide (d = ['.'])) others = 0 := by
        rw [List.countP_eq_zero]
        intro d hd
        simp only [decide_eq_true_eq]
        rintro rfl; exact hothers.1 hd
      simp [List.countP_cons, this]
    · rw [hperm.countP_eq]
      have : List.countP (fun d => decide (d = ['.', '.'])) others = 0 := by
        rw [List.countP_eq_zero]
        intro d hd
        simp only [decide_eq_true_eq]
        rintro rfl; exact hothers.2 hd
      simp [List.countP_cons, this]

set_option maxRecDepth 1000000 in
/-- A run of `main_exit_status`: `-l -a` on the directory `d` and on `q`, which
does not exist. -/
theorem main_exit_status_witness :
    (∀ t ∈ effective_targets ["d".toList, "q".toList], target_defined 3 fsEnv dirStat t) ∧
    ∃ (results : List (Nat × Streams)) (status : Nat),
      List.Forall₂ (fun t r => do_ls 3 fsEnv dirStat t.1 t.2 ⟨[], []⟩ = some r)
        (effective_targets ["d".toList, "q".toList]) results ∧
      main 3 fsEnv dirStat ["d".toList, "q".toList]
        = some (status, ⟨(results.map (fun r => r.2.out)).flatten,
                         (results.map (fun r => r.2.err)).flatten⟩) ∧
      (status = EXIT_SUCCESS ∨ status = EXIT_FAILURE) ∧
      (status ≠ 0 ↔ ∃ t ∈ effective_targets ["d".toList, "q".toList],
        reportable_error 3 fsEnv t) :=
  ⟨by decide, main_exit_status 3 fsEnv dirStat ["d".toList, "q".toList] (by decide)⟩

theorem entry_lines_are_renderings (flags : Nat) (env : Env) (pfx : CStr)
    (entries : List CStr) :
    ∀ s : Stat, ∀ line ∈ entry_lines flags env pfx s entries,
      ∃ s1 name, line = render_entry flags env s1 name := by
  induction entries with
  | nil => intro s line h; simp [entry_lines] at h
  | cons d rest ih =>
    intro s line h
    by_cases hh : hidden flags d
    · simp only [entry_lines, if_pos hh] at h
      exact ih s line h
    · simp only [entry_lines, if_neg hh, List.mem_cons] at h
      rcases h with rfl | h
      · exact ⟨_, _, rfl⟩
      · exact ih _ line h

/-- C6, as the code has it: on the runs that meet no undefined behaviour (every
joined path of a child that is not skipped fits the array `nome`, and under
`-l` `ctime` gives a text for every entry rendered), `do_ls_dir` writes the
header, the display name followed by a colon and a newline, exactly once and
before every entry line, if and only if the display name is non-empty and
shorter than `NAME_MAX` characters; for the empty display name and for one of
`NAME_MAX` characters or more it writes no header. -/
theorem do_ls_dir_header (flags : Nat) (env : Env) (s0 ds : Stat) (dir dname : CStr)
    (io : Streams) (hdef : dir_defined flags env s0 dir dname) :
    ∃ (ret : Nat) (err : List Diag) (lines : List (List Char)),
      do_ls_dir flags env s0 ds dir dname io
        = some (ret, ⟨io.out
            ++ (if dname ≠ [] ∧ dname.length < NAME_MAX then dname ++ [':', '\n'] else [])
            ++ lines.flatten, err⟩) ∧
      ∀ line ∈ lines, ∃ s name, line = render_entry flags env s name := by
  have hhdr : dir_header dname
      = (if dname ≠ [] ∧ dname.length < NAME_MAX then dname ++ [':', '\n'] else []) := by
    unfold dir_header header_guard
    by_cases h : dname = [] <;> simp [h]
  rw [← hhdr]
  cases ho : env.opendir dir with
  | error e =>
    refine ⟨1, io.err ++ [⟨if dname.length ≠ 0 then dname else dir, e⟩], [], ?_, by simp⟩
    rw [do_ls_dir_open_fail flags env s0 ds dir dname io e ho]
    simp
  | ok entries =>
    exact ⟨_, _, _, do_ls_dir_eq flags env s0 ds dir dname io entries ho
      (dir_defined_ok flags env s0 dir dname entries hdef ho),
      entry_lines_are_renderings flags env _ entries s0⟩

set_option maxRecDepth 1000000 in
/-- A run of `do_ls_dir_header`: the directory `d` without options. -/
theorem do_ls_dir_header_witness :
    dir_defined 0 fsEnv dirStat "d".toList "d".toList ∧
    ∃ (ret : Nat) (err : List Diag) (lines : List (List Char)),
      do_ls_dir 0 fsEnv dirStat dirStat "d".toList "d".toList ⟨[], []⟩
        = some (ret, ⟨([] : List Char)
            ++ (if "d".toList ≠ [] ∧ "d".toList.length < NAME_MAX then
                  "d".toList ++ [':', '\n'] else [])
            ++ lines.flatten, err⟩) ∧
      ∀ line ∈ lines, ∃ s name, line = render_entry 0 fsEnv s name :=
  ⟨by decide, do_ls_dir_header 0 fsEnv dirStat dirStat "d".toList "d".toList ⟨[], []⟩
    (by decide)⟩

set_option maxRecDepth 1000000 in
/-- C6 fails as stated: the display name `longDir` has 255 characters, it is not
empty, and `do_ls_dir` writes no header for it (it writes nothing at all for
this empty directory). -/
theorem do_ls_dir_no_header_for_long_name :
    longDir ≠ [] ∧
    do_ls_dir 0 fsEnv dirStat dirStat longDir longDir ⟨[], []⟩ = some (0, ⟨[], []⟩) := by
  decide

set_option maxRecDepth 1000000 in
/-- C4, at the failing input: `e/x` does not resolve (`stat` fails with
`ENOENT`); `do_ls_dir` reports it, returns 1, and still writes the entry line
` e/x` for it. -/
theorem do_ls_dir_renders_unresolved_child :
    fsEnv.stat "e/x".toList = Except.error 2 ∧
    do_ls_dir 0 fsEnv dirStat dirStat "e".toList "e".toList ⟨[], []⟩
      = some (1, ⟨"e:\n e/x\n".toList, [⟨"e/x".toList, 2⟩]⟩) := by
  constructor <;> rfl

set_option maxRecDepth 1000000 in
/-- C5, at the failing input: the join of `f`, `/` and the 254 characters of
`longChild` has 256 characters.  `strncpy` copies the 253 characters that fit,
the array then holds no NUL, reading it as a string runs past its end, and the
run of `do_ls_dir` is undefined: no error is reported for the child. -/
theorem do_ls_dir_overlong_join_undefined :
    NAME_MAX < ("f".toList ++ ['/'] ++ longChild).length ∧
    strncpy (("f".toList.map Cell.ch ++ List.replicate 254 Cell.nul).set 1 (Cell.ch '/'))
        2 longChild ((NAME_MAX : Int) - 2)
      = some (("f/".toList ++ longChild.take 253).map Cell.ch) ∧
    c_str (("f/".toList ++ longChild.take 253).map Cell.ch) = none ∧
    do_ls_dir 0 fsEnv dirStat dirStat "f".toList "f".toList ⟨[], []⟩ = none := by
  refine ⟨by decide, by rfl, by rfl, by rfl⟩

theorem fmt_d_left8_of_lt (n : Nat) (h : n < 2 ^ 31) :
    fmt_d_left8 n = padRight 8 (Nat.toDigits 10 n) := by
  have h1 : n % 2 ^ 32 = n := Nat.mod_eq_of_lt (by omega)
  have h2 : ¬ ((n : Int) < 0) := by omega
  unfold fmt_d_left8 toSigned fmt_d
  rw [h1]
  simp only [show (32 : Nat) - 1 = 31 from rfl, h, if_true, h2, if_false, Int.toNat_ofNat]

set_option maxRecDepth 1000000 in
/-- C10, at the failing input: the owner id 3000000000 has no name; `%-8d`
reads it as a signed `int` and the owner field is `-1294967296`. -/
theorem do_ls_file_large_uid :
    fsEnv.getpwuid 3000000000 = none ∧
    do_ls_file OPT_l fsEnv ⟨0o100644, 1, 3000000000, 0, 5, 0⟩ "a".toList "a".toList ⟨[], []⟩
      = some (0, ⟨" 1   -1294967296 root            5 Thu Jan  1 00:00:00 1970 a\n".toList,
          []⟩) := by
  constructor <;> rfl

set_option maxRecDepth 1000000 in
/-- C2, at the failing input: the directory `g` yields `.`, `..` and `z`, and
the modification time of `z` is `farTime`.  Under `-l`, `ctime` returns NULL
for it and `strlen` reads through the null pointer: the run of `do_ls_dir` is
undefined, and the one entry line that the claim requires is not rendered. -/
theorem do_ls_dir_far_mtime_undefined :
    fsEnv.opendir "g".toList = Except.ok [".".toList, "..".toList, "z".toList] ∧
    fsEnv.stat "g/z".toList = Except.ok farStat ∧
    fsEnv.ctime farStat.st_mtime = none ∧
    do_ls_dir OPT_l fsEnv dirStat dirStat "g".toList "g".toList ⟨[], []⟩ = none := by
  refine ⟨by rfl, by rfl, by rfl, by rfl⟩

theorem not_reportable_dir (flags : Nat) (env : Env) (t : CStr × CStr) (s : Stat)
    (entries : List CStr) (hs : env.stat t.1 = Except.ok s)
    (ho : env.opendir t.1 = Except.ok entries)
    (hnil : entry_diags flags env (dir_pfx t.2) entries = []) :
    ¬ reportable_error flags env t := by
  rintro (⟨e, he⟩ | ⟨s1, _, _, ⟨e, he⟩ | ⟨en, hen, hex⟩⟩)
  · rw [hs] at he; cases he
  · rw [ho] at he; cases he
  · rw [ho] at hen; cases hen
    exact (entry_diags_ne_nil_iff flags env (dir_pfx t.2) entries).mpr hex hnil

set_option maxRecDepth 1000000 in
/-- C3, at the failing input: with `-l` and the targets `g` and `d`, the run of
`main` is undefined while it lists `g` (`ctime` returns NULL for the
modification time of `g/z`): the target `d` is not processed and `main`
returns no exit status, although no reportable error occurred.  Alone, the
target `d` is listed and the exit status is `EXIT_SUCCESS`. -/
theorem main_far_mtime_undefined :
    ¬ reportable_error OPT_l fsEnv ("g".toList, "g".toList) ∧
    ¬ reportable_error OPT_l fsEnv ("d".toList, "d".toList) ∧
    main OPT_l fsEnv dirStat ["g".toList, "d".toList] = none ∧
    main OPT_l fsEnv dirStat ["d".toList]
      = some (EXIT_SUCCESS, ⟨("d:\n"
          ++ "-rw-r--r--  1   root     root            5 Thu Jan  1 00:00:00 1970 d/a\n"
          ++ "drwxr-xr-x  2   root     root         4096 Thu Jan  1 00:00:00 1970 d/b\n").toList,
          []⟩) := by
  refine ⟨?_, ?_, by rfl, by rfl⟩
  · exact not_reportable_dir OPT_l fsEnv ("g".toList, "g".toList) dirStat
      [".".toList, "..".toList, "z".toList] (by rfl) (by rfl) (by rfl)
  · exact not_reportable_dir OPT_l fsEnv ("d".toList, "d".toList) dirStat
      [".".toList, "..".toList, "a".toList, "b".toList] (by rfl) (by rfl) (by rfl)

theorem entry_lines_two_pfx (flags : Nat) (env : Env) (pfx : CStr) (entries : List CStr)
    (hsame : ∀ d ∈ entries, env.stat (pfx ++ d) = env.stat d) :
    ∀ s : Stat, ∃ rows : List (Stat × CStr),
      rows.map (fun r => r.2) = entries.filter (fun d => decide (¬ hidden flags d)) ∧
      entry_lines flags env [] s entries
        = rows.map (fun r => render_entry flags env r.1 r.2) ∧
      entry_lines flags env pfx s entries
        = rows.map (fun r => render_entry flags env r.1 (pfx ++ r.2)) := by
  induction entries with
  | nil => intro s; exact ⟨[], rfl, rfl, rfl⟩
  | cons d rest ih =>
    intro s
    have hrest : ∀ d1 ∈ rest, env.stat (pfx ++ d1) = env.stat d1 :=
      fun d1 h1 => hsame d1 (List.mem_cons_of_mem _ h1)
    by_cases hh : hidden flags d
    · obtain ⟨rows, h1, h2, h3⟩ := ih hrest s
      refine ⟨rows, ?_, ?_, ?_⟩
      · simp only [List.filter_cons, hh, not_true_eq_false, decide_False, Bool.false_eq_true,
          if_false, h1]
      · simp only [entry_lines, if_pos hh, h2]
      · simp only [entry_lines, if_pos hh, h3]
    · have hd := hsame d (List.mem_cons_self _ _)
      have hsi : stat_into env s (pfx ++ d) = stat_into env s d := by
        simp only [stat_into, hd]
      obtain ⟨rows, h1, h2, h3⟩ := ih hrest (stat_into env s d)
      refine ⟨(stat_into env s d, d) :: rows, ?_, ?_, ?_⟩
      · simp only [List.map_cons, List.filter_cons, hh, not_false_eq_true, decide_True,
          if_true, h1]
      · simp only [entry_lines, if_neg hh, List.nil_append, h2, List.map_cons]
      · simp only [entry_lines, if_neg hh, hsi, h3, List.map_cons]

theorem entry_diags_two_pfx (flags : Nat) (env : Env) (pfx : CStr) (entries : List CStr)
    (hsame : ∀ d ∈ entries, env.stat (pfx ++ d) = env.stat d) :
    entry_diags flags env [] entries = [] ↔ entry_diags flags env pfx entries = [] := by
  have h1 := entry_diags_ne_nil_iff flags env [] entries
  have h2 := entry_diags_ne_nil_iff flags env pfx entries
  have h3 : (∃ d ∈ entries, ¬ hidden flags d ∧ ∃ e, env.stat ([] ++ d) = Except.error e) ↔
      (∃ d ∈ entries, ¬ hidden flags d ∧ ∃ e, env.stat (pfx ++ d) = Except.error e) := by
    constructor
    · rintro ⟨d, hd, hv, e, he⟩
      exact ⟨d, hd, hv, e, by rw [hsame d hd]; simpa using he⟩
    · rintro ⟨d, hd, hv, e, he⟩
      exact ⟨d, hd, hv, e, by rw [hsame d hd] at he; simpa using he⟩
  rw [← not_iff_not]
  exact h1.trans (h3.trans h2.symm)

theorem entries_defined_two_pfx (flags : Nat) (env : Env) (noff : Nat) (pfx : CStr)
    (entries : List CStr) (hsame : ∀ d ∈ entries, env.stat (pfx ++ d) = env.stat d) :
    ∀ s : Stat, entries_defined flags env noff pfx s entries = true →
      entries_defined flags env 0 [] s entries = true := by
  induction entries with
  | nil => intro s _; rfl
  | cons d rest ih =>
    intro s hdef
    have hrest : ∀ d1 ∈ rest, env.stat (pfx ++ d1) = env.stat d1 :=
      fun d1 h1 => hsame d1 (List.mem_cons_of_mem _ h1)
    by_cases hh : hidden flags d
    · simp only [entries_defined, if_pos hh] at hdef ⊢
      exact ih hrest s hdef
    · have hd := hsame d (List.mem_cons_self _ _)
      have hsi : stat_into env s (pfx ++ d) = stat_into env s d := by
        simp only [stat_into, hd]
      simp only [entries_defined, if_neg hh, Bool.and_eq_true, decide_eq_true_eq, hsi,
        List.nil_append] at hdef ⊢
      exact ⟨⟨by omega, hdef.1.2⟩, ih hrest _ hdef.2⟩

/-- C7, as the code has it: when the current directory resolves as a directory
and the run with the argument `.` meets no undefined behaviour (every joined
path `./child` fits the array `nome`, and under `-l` `ctime` gives a text for
every entry rendered), the run without positional arguments and the run with
the argument `.` write, for the same children in the same order and with the
same metadata fields, one entry line each; in the first run the line shows the
child name, in the second run the child name behind `./`, and the second run
writes the header `.:` first.  Both runs end with the same exit status. -/
theorem main_no_argument_vs_dot (flags : Nat) (env : Env) (s0 sdot : Stat)
    (hdot : env.stat ['.'] = Except.ok sdot)
    (hdir : sdot.st_mode &&& S_IFMT = S_IFDIR)
    (hsame : dot_resolves_alike env)
    (hdef : dir_defined flags env s0 ['.'] ['.']) :
    ∃ (rows : List (List Char × CStr)) (status : Nat) (err1 err2 : List Diag),
      (∀ entries, env.opendir ['.'] = Except.ok entries →
        rows.map (fun r => r.2)
          = entries.filter
              (fun d => decide (¬ (flag flags OPT_a = 0 ∧ (d = ['.'] ∨ d = ['.', '.']))))) ∧
      main flags env s0 []
        = some (status, ⟨(rows.map (fun r => r.1 ++ ' ' :: r.2 ++ ['\n'])).flatten, err1⟩) ∧
      main flags env s0 [['.']]
        = some (status,
            ⟨['.', ':', '\n']
              ++ (rows.map (fun r => r.1 ++ ' ' :: (['.', '/'] ++ r.2) ++ ['\n'])).flatten,
             err2⟩) := by
  have hg1 : header_guard ['.'] := by decide
  have hg0 : ¬ header_guard [] := by decide
  have hne : ([['.']] : List CStr) ≠ [] := by simp
  have hm0 : main flags env s0 []
      = (match do_ls_dir flags env s0 sdot ['.'] [] ⟨[], []⟩ with
         | none => none
         | some r => some (if r.1 ≠ 0 then EXIT_FAILURE else EXIT_SUCCESS, r.2)) := by
    unfold main
    rw [if_pos rfl, do_ls_is_dir flags env s0 ['.'] [] _ sdot hdot hdir]
  have hm1 : main flags env s0 [['.']]
      = (match do_ls_dir flags env s0 sdot ['.'] ['.'] ⟨[], []⟩ with
         | none => none
         | some r => some (if r.1 ≠ 0 then EXIT_FAILURE else EXIT_SUCCESS, r.2)) := by
    unfold main
    rw [if_neg hne, main_loop, do_ls_is_dir flags env s0 ['.'] ['.'] _ sdot hdot hdir]
    cases do_ls_dir flags env s0 sdot ['.'] ['.'] ⟨[], []⟩ <;> rfl
  rw [hm0, hm1]
  cases ho : env.opendir ['.'] with
  | error e =>
    refine ⟨[], EXIT_FAILURE, [⟨['.'], e⟩], [⟨['.'], e⟩], ?_, ?_, ?_⟩
    · intro entries h; cases h
    · rw [do_ls_dir_open_fail flags env s0 sdot ['.'] [] _ e ho]
      simp [dir_header, hg0, EXIT_FAILURE]
    · rw [do_ls_dir_open_fail flags env s0 sdot ['.'] ['.'] _ e ho]
      simp [dir_header, hg1, EXIT_FAILURE]
  | ok entries =>
    have hp1 : dir_pfx ['.'] = ['.', '/'] := by simp [dir_pfx, hg1]
    have hp0 : dir_pfx [] = [] := by simp [dir_pfx, hg0]
    have hn1 : dir_noff ['.'] = 2 := by simp [dir_noff, hg1]
    have hn0 : dir_noff [] = 0 := by simp [dir_noff, hg0]
    have hs := hsame entries ho
    have hdef1 := dir_defined_ok flags env s0 ['.'] ['.'] entries hdef ho
    have hdef0 : entries_defined flags env (dir_noff []) (dir_pfx []) s0 entries = true := by
      rw [hn0, hp0]
      rw [hn1, hp1] at hdef1
      exact entries_defined_two_pfx flags env 2 ['.', '/'] entries hs s0 hdef1
    obtain ⟨rows, hr1, hr2, hr3⟩ := entry_lines_two_pfx flags env ['.', '/'] entries hs s0
    have hd := entry_diags_two_pfx flags env ['.', '/'] entries hs
    refine ⟨rows.map (fun r => (entry_fields flags env r.1, r.2)),
      if entry_diags flags env [] entries = [] then EXIT_SUCCESS else EXIT_FAILURE,
      entry_diags flags env [] entries, entry_diags flags env ['.', '/'] entries, ?_, ?_, ?_⟩
    · intro entries1 h; cases h
      rw [List.map_map]
      exact hr1
    · rw [do_ls_dir_eq flags env s0 sdot ['.'] [] _ entries ho hdef0, hp0, hr2]
      by_cases hn : entry_diags flags env [] entries = [] <;>
        simp [hn, dir_header, hg0, EXIT_FAILURE, List.map_map, render_entry,
          Function.comp_def]
    · rw [do_ls_dir_eq flags env s0 sdot ['.'] ['.'] _ entries ho hdef1, hp1, hr3]
      by_cases hn : entry_diags flags env [] entries = []
      · have hn2 := hd.mp hn
        simp [hn, hn2, dir_header, hg1, List.map_map, render_entry, Function.comp_def]
      · have hn2 : ¬ entry_diags flags env ['.', '/'] entries = [] := fun h => hn (hd.mpr h)
        simp [hn, hn2, dir_header, hg1, EXIT_FAILURE, List.map_map, render_entry,
          Function.comp_def]

set_option maxRecDepth 1000000 in
theorem fsEnv_dot_resolves_alike : dot_resolves_alike fsEnv := by
  intro entries h d hd
  have h2 : fsEnv.opendir ['.']
      = Except.ok [".".toList, "..".toList, "a".toList, "b".toList] := rfl
  rw [h2] at h
  cases h
  simp only [List.mem_cons, List.mem_singleton, List.not_mem_nil, or_false] at hd
  rcases hd with rfl | rfl | rfl | rfl <;> rfl

set_option maxRecDepth 1000000 in
/-- A run of `main_no_argument_vs_dot`: the current directory of `fsEnv` with
`-l` and `-a`. -/
theorem main_no_argument_vs_dot_witness :
    fsEnv.stat ['.'] = Except.ok dirStat ∧
    dirStat.st_mode &&& S_IFMT = S_IFDIR ∧
    dot_resolves_alike fsEnv ∧
    dir_defined 3 fsEnv dirStat ['.'] ['.'] ∧
    ∃ (rows : List (List Char × CStr)) (status : Nat) (err1 err2 : List Diag),
      (∀ entries, fsEnv.opendir ['.'] = Except.ok entries →
        rows.map (fun r => r.2)
          = entries.filter
              (fun d => decide (¬ (flag 3 OPT_a = 0 ∧ (d = ['.'] ∨ d = ['.', '.']))))) ∧
      main 3 fsEnv dirStat []
        = some (status, ⟨(rows.map (fun r => r.1 ++ ' ' :: r.2 ++ ['\n'])).flatten, err1⟩) ∧
      main 3 fsEnv dirStat [['.']]
        = some (status,
            ⟨['.', ':', '\n']
              ++ (rows.map (fun r => r.1 ++ ' ' :: (['.', '/'] ++ r.2) ++ ['\n'])).flatten,
             err2⟩) :=
  ⟨rfl, by decide, fsEnv_dot_resolves_alike, by decide,
    main_no_argument_vs_dot 3 fsEnv dirStat dirStat rfl (by decide)
      fsEnv_dot_resolves_alike (by decide)⟩

set_option maxRecDepth 1000000 in
/-- C7 fails as stated: in `fsEnv`, without options, the run without arguments
writes the lines ` a` and ` b`, the run with the argument `.` writes the header
and the lines ` ./a` and ` ./b`; the second output is not the header followed
by the first output. -/
theorem main_dot_lines_differ :
    main 0 fsEnv dirStat [] = some (0, ⟨" a\n b\n".toList, []⟩) ∧
    main 0 fsEnv dirStat [".".toList] = some (0, ⟨".:\n ./a\n ./b\n".toList, []⟩) ∧
    ".:\n ./a\n ./b\n".toList ≠ ".:\n".toList ++ " a\n b\n".toList := by
  decide

theorem entry_lines_at (flags : Nat) (env : Env) (pfx : CStr) (pre post : List CStr)
    (d : CStr) (sd : Stat) (hv : ¬ hidden flags d)
    (hs : env.stat (pfx ++ d) = Except.ok sd) :
    ∀ s : Stat, ∃ before : List (List Char),
      entry_lines flags env pfx s (pre ++ d :: post)
        = before ++ render_entry flags env sd (pfx ++ d) :: entry_lines flags env pfx sd post ∧
      List.Forall₂ (fun c line => ∃ s1, line = render_entry flags env s1 (pfx ++ c))
        (pre.filter (fun c => decide (¬ hidden flags c))) before := by
  induction pre with
  | nil =>
    intro s
    refine ⟨[], ?_, List.Forall₂.nil⟩
    simp only [List.nil_append, entry_lines, if_neg hv, stat_into, hs]
  | cons c rest ih =>
    intro s
    by_cases hh : hidden flags c
    · obtain ⟨before, h1, h2⟩ := ih s
      refine ⟨before, ?_, ?_⟩
      · simp only [List.cons_append, entry_lines, if_pos hh, List.append_eq, h1]
      · simpa only [List.filter_cons, hh, not_true_eq_false, decide_False, Bool.false_eq_true,
          if_false] using h2
    · obtain ⟨before, h1, h2⟩ := ih (stat_into env s (pfx ++ c))
      refine ⟨render_entry flags env (stat_into env s (pfx ++ c)) (pfx ++ c) :: before, ?_, ?_⟩
      · simp only [List.cons_append, entry_lines, if_neg hh, List.append_eq, h1]
      · simp only [List.filter_cons, hh, not_false_eq_true, decide_True, if_true]
        exact List.Forall₂.cons ⟨_, rfl⟩ h2

theorem entries_defined_at (flags : Nat) (env : Env) (noff : Nat) (pfx : CStr)
    (pre post : List CStr) (d : CStr) (sd : Stat) (hv : ¬ hidden flags d)
    (hs : env.stat (pfx ++ d) = Except.ok sd) :
    ∀ s : Stat, entries_defined flags env noff pfx s (pre ++ d :: post) = true →
      time_ok flags env sd := by
  induction pre with
  | nil =>
    intro s hdef
    simp only [List.nil_append, entries_defined, if_neg hv, stat_into, hs, Bool.and_eq_true,
      decide_eq_true_eq] at hdef
    exact hdef.1.2
  | cons c rest ih =>
    intro s hdef
    by_cases hh : hidden flags c
    · simp only [List.cons_append, entries_defined, if_pos hh, List.append_eq] at hdef
      exact ih s hdef
    · simp only [List.cons_append, entries_defined, if_neg hh, List.append_eq,
        Bool.and_eq_true] at hdef
      exact ih _ hdef.2

theorem ctime_chopped_eq (env : Env) (t : Int) (dt : CStr)
    (hct : env.ctime t = some dt) (hsome : (ctime_chopped env t).isSome = true) :
    ctime_chopped env t = some dt.dropLast := by
  unfold ctime_chopped at hsome ⊢
  rw [hct] at hsome ⊢
  cases dt with
  | nil => simp at hsome
  | cons c cs => rfl

set_option maxRecDepth 100000 in
theorem render_entry_long_rw_r_r (flags : Nat) (env : Env) (uid gid : Nat) (mtime : Int)
    (name dt : CStr) (hl : flag flags OPT_l ≠ 0) (hct : env.ctime mtime = some dt)
    (ht : time_ok flags env ⟨0o100644, 1, uid, gid, 5, mtime⟩) :
    render_entry flags env ⟨0o100644, 1, uid, gid, 5, mtime⟩ name
      = "-rw-r--r--  1   ".toList
        ++ (match env.getpwuid uid with
            | some pw_name => fmt_s_left8 pw_name
            | none => fmt_d_left8 uid)
        ++ [' ']
        ++ (match env.getgrgid gid with
            | some gr_name => fmt_s_left8 gr_name
            | none => fmt_d_left8 gid)
        ++ "        5 ".toList
        ++ dt.dropLast
        ++ [' '] ++ name ++ ['\n'] := by
  have hm : print_mode 0o100644 ⟨[], []⟩ = ⟨"-rw-r--r-- ".toList, []⟩ := by decide
  have hn : fmt_ld_left3 1 = "1  ".toList := by decide
  have hz : fmt_lld_right8 (toUnsigned64 5) = "       5".toList := by decide
  have hc := ctime_chopped_eq env mtime dt hct (ht hl)
  unfold render_entry entry_fields
  simp only [if_pos hl, hm, hn, hz, hc, Option.getD_some]
  cases env.getpwuid uid <;> cases env.getgrgid gid <;> simp [List.append_assoc]

theorem filter_shown_all (flags : Nat) (entries : List CStr) (ha : flag flags OPT_a ≠ 0) :
    entries.filter (fun c => decide (¬ hidden flags c)) = entries := by
  apply List.filter_eq_self.mpr
  intro c _
  simp [hidden, ha]

/-- C9, as the code has it: when `d` is listed as target `d` with `-l` and `-a`
and holds the regular file `a` (mode `rw-r--r--`, one link, five bytes), then
for every owner and group and every timestamp for which `ctime` gives a text,
on the runs that meet no undefined behaviour, the output is the header `d:`,
the lines of the children before `a`, the line of `a`, and the lines of the
children after it.  The line of `a` is `-rw-r--r--`, two spaces, the link
count `1` left-justified in three columns, a space, the owner field, a space,
the group field, a space, the size `5` right-justified in eight columns, a
space, the text of `ctime` without its newline, a space, the joined path `d/a`
and a newline. -/
theorem do_ls_long_line_of_a (flags : Nat) (env : Env) (s0 sd : Stat)
    (pre post : List CStr) (uid gid : Nat) (mtime : Int) (dt : CStr)
    (hl : flag flags OPT_l ≠ 0) (ha : flag flags OPT_a ≠ 0)
    (hd : env.stat "d".toList = Except.ok sd) (hdir : sd.st_mode &&& S_IFMT = S_IFDIR)
    (hopen : env.opendir "d".toList = Except.ok (pre ++ "a".toList :: post))
    (hdef : dir_defined flags env s0 "d".toList "d".toList)
    (hstat : env.stat "d/a".toList = Except.ok ⟨0o100644, 1, uid, gid, 5, mtime⟩)
    (hct : env.ctime mtime = some dt) :
    ∃ (ret : Nat) (err : List Diag) (before after : List (List Char)),
      do_ls flags env s0 "d".toList "d".toList ⟨[], []⟩
        = some (ret, ⟨"d:\n".toList ++ before.flatten
            ++ ("-rw-r--r--  1   ".toList
                ++ (match env.getpwuid uid with
                    | some pw_name => fmt_s_left8 pw_name
                    | none => fmt_d_left8 uid)
                ++ [' ']
                ++ (match env.getgrgid gid with
                    | some gr_name => fmt_s_left8 gr_name
                    | none => fmt_d_left8 gid)
                ++ "        5 ".toList
                ++ dt.dropLast
                ++ " d/a\n".toList)
            ++ after.flatten, err⟩) ∧
      List.Forall₂
        (fun c line => ∃ fields, line = fields ++ ' ' :: ("d/".toList ++ c) ++ ['\n'])
        pre before ∧
      List.Forall₂
        (fun c line => ∃ fields, line = fields ++ ' ' :: ("d/".toList ++ c) ++ ['\n'])
        post after := by
  have hg : header_guard "d".toList := by decide
  have hp : dir_pfx "d".toList = "d/".toList := by
    unfold dir_pfx; rw [if_pos hg]; rfl
  have hh : dir_header "d".toList = "d:\n".toList := by
    unfold dir_header; rw [if_pos hg]; rfl
  have hda : "d/".toList ++ "a".toList = "d/a".toList := rfl
  have htl : [' '] ++ "d/a".toList ++ ['\n'] = " d/a\n".toList := rfl
  have hv : ¬ hidden flags "a".toList := by simp [hidden, ha]
  have hdef1 := dir_defined_ok flags env s0 "d".toList "d".toList _ hdef hopen
  have ht : time_ok flags env ⟨0o100644, 1, uid, gid, 5, mtime⟩ := by
    rw [hp] at hdef1
    exact entries_defined_at flags env _ "d/".toList pre post "a".toList _ hv hstat s0 hdef1
  obtain ⟨before, hb1, hb2⟩ := entry_lines_at flags env "d/".toList pre post "a".toList
    ⟨0o100644, 1, uid, gid, 5, mtime⟩ hv hstat s0
  rw [filter_shown_all flags pre ha] at hb2
  have hafter := entry_lines_shown flags env "d/".toList post ⟨0o100644, 1, uid, gid, 5, mtime⟩
  rw [filter_shown_all flags post ha] at hafter
  rw [hda] at hb1
  refine ⟨if entry_diags flags env "d/".toList (pre ++ "a".toList :: post) = [] then 0 else 1,
    [] ++ entry_diags flags env "d/".toList (pre ++ "a".toList :: post), before,
    entry_lines flags env "d/".toList ⟨0o100644, 1, uid, gid, 5, mtime⟩ post, ?_,
    hb2.imp (fun _ _ h => ?_), hafter.imp (fun _ _ h => ?_)⟩
  · rw [do_ls_is_dir flags env s0 "d".toList "d".toList _ sd hd hdir,
      do_ls_dir_eq flags env s0 sd "d".toList "d".toList _ _ hopen hdef1, hp, hh, hb1,
      render_entry_long_rw_r_r flags env uid gid mtime _ dt hl hct ht]
    simp only [List.flatten_append, List.flatten_cons, List.append_assoc, List.nil_append,
      ← htl]
  · obtain ⟨s1, rfl⟩ := h
    exact ⟨_, rfl⟩
  · obtain ⟨s1, rfl⟩ := h
    exact ⟨_, rfl⟩

set_option maxRecDepth 1000000 in
/-- A run of `do_ls_long_line_of_a`: the directory `d` of `fsEnv`. -/
theorem do_ls_long_line_of_a_witness :
    flag 3 OPT_l ≠ 0 ∧ flag 3 OPT_a ≠ 0 ∧
    fsEnv.stat "d".toList = Except.ok dirStat ∧
    dirStat.st_mode &&& S_IFMT = S_IFDIR ∧
    fsEnv.opendir "d".toList
      = Except.ok ([".".toList, "..".toList] ++ "a".toList :: ["b".toList]) ∧
    dir_defined 3 fsEnv dirStat "d".toList "d".toList ∧
    fsEnv.stat "d/a".toList = Except.ok ⟨0o100644, 1, 0, 0, 5, 0⟩ ∧
    fsEnv.ctime 0 = some "Thu Jan  1 00:00:00 1970\n".toList ∧
    ∃ (ret : Nat) (err : List Diag) (before after : List (List Char)),
      do_ls 3 fsEnv dirStat "d".toList "d".toList ⟨[], []⟩
        = some (ret, ⟨"d:\n".toList ++ before.flatten
            ++ ("-rw-r--r--  1   ".toList
                ++ (match fsEnv.getpwuid 0 with
                    | some pw_name => fmt_s_left8 pw_name
                    | none => fmt_d_left8 0)
                ++ [' ']
                ++ (match fsEnv.getgrgid 0 with
                    | some gr_name => fmt_s_left8 gr_name
                    | none => fmt_d_left8 0)
                ++ "        5 ".toList
                ++ "Thu Jan  1 00:00:00 1970\n".toList.dropLast
                ++ " d/a\n".toList)
            ++ after.flatten, err⟩) ∧
      List.Forall₂
        (fun c line => ∃ fields, line = fields ++ ' ' :: ("d/".toList ++ c) ++ ['\n'])
        [".".toList, "..".toList] before ∧
      List.Forall₂
        (fun c line => ∃ fields, line = fields ++ ' ' :: ("d/".toList ++ c) ++ ['\n'])
        ["b".toList] after :=
  ⟨by decide, by decide, rfl, by decide, rfl, by decide, rfl, rfl,
    do_ls_long_line_of_a 3 fsEnv dirStat dirStat [".".toList, "..".toList] ["b".toList]
      0 0 0 "Thu Jan  1 00:00:00 1970\n".toList (by decide) (by decide) rfl (by decide) rfl
      (by decide) rfl rfl⟩

set_option maxRecDepth 1000000 in
/-- C9 fails as stated: in `fsEnv` the line of `a` under `-l -a` is
`-rw-r--r--  1   root     root            5 Thu Jan  1 00:00:00 1970 d/a`; its
first fifteen characters are not `-rw-r--r--`, three spaces, `1` and a space,
and it does not end with the timestamp followed by ` a` and a newline. -/
theorem scenario_line_mismatch :
    do_ls 3 fsEnv dirStat "d".toList "d".toList ⟨[], []⟩
      = some (0, ⟨("d:\n"
          ++ "drwxr-xr-x  2   root     root         4096 Thu Jan  1 00:00:00 1970 d/.\n"
          ++ "drwxr-xr-x  2   root     root         4096 Thu Jan  1 00:00:00 1970 d/..\n").toList
          ++ "-rw-r--r--  1   root     root            5 Thu Jan  1 00:00:00 1970 d/a\n".toList
          ++ "drwxr-xr-x  2   root     root         4096 Thu Jan  1 00:00:00 1970 d/b\n".toList,
          []⟩) ∧
    "-rw-r--r--  1   root     root            5 Thu Jan  1 00:00:00 1970 d/a\n".toList.take 15
      ≠ "-rw-r--r--   1 ".toList ∧
    List.isSuffixOf "Thu Jan  1 00:00:00 1970 a\n".toList
      "-rw-r--r--  1   root     root            5 Thu Jan  1 00:00:00 1970 d/a\n".toList
      = false := by
  decide

set_option maxRecDepth 1000000 in
/-- A run of `do_ls_dir_skips_dot_entries`: the directory `d` of `fsEnv` with
`-a`. -/
theorem do_ls_dir_skips_dot_entries_witness :
    fsEnv.opendir "d".toList
      = Except.ok [".".toList, "..".toList, "a".toList, "b".toList] ∧
    [".".toList, "..".toList, "a".toList, "b".toList].Perm
      (['.'] :: ['.', '.'] :: ["a".toList, "b".toList]) ∧
    (['.'] ∉ ["a".toList, "b".toList] ∧ ['.', '.'] ∉ ["a".toList, "b".toList]) ∧
    entries_defined OPT_a fsEnv (dir_noff "d".toList) (dir_pfx "d".toList) dirStat
        [".".toList, "..".toList, "a".toList, "b".toList] = true ∧
    ∃ (ret : Nat) (err : List Diag) (shown : List CStr) (lines : List (List Char)),
      do_ls_dir OPT_a fsEnv dirStat dirStat "d".toList "d".toList ⟨[], []⟩
        = some (ret, ⟨([] : List Char) ++ dir_header "d".toList ++ lines.flatten, err⟩) ∧
      shown = [".".toList, "..".toList, "a".toList, "b".toList].filter
        (fun d => decide (¬ (flag OPT_a OPT_a = 0 ∧ (d = ['.'] ∨ d = ['.', '.'])))) ∧
      List.Forall₂
        (fun d line => ∃ s, line = render_entry OPT_a fsEnv s (dir_pfx "d".toList ++ d))
        shown lines ∧
      (flag OPT_a OPT_a = 0 →
        lines.length = ["a".toList, "b".toList].length ∧ ['.'] ∉ shown ∧ ['.', '.'] ∉ shown) ∧
      (flag OPT_a OPT_a ≠ 0 →
        lines.length = ["a".toList, "b".toList].length + 2 ∧
          shown.countP (fun d => decide (d = ['.'])) = 1 ∧
          shown.countP (fun d => decide (d = ['.', '.'])) = 1) :=
  ⟨rfl, List.Perm.refl _, by decide, by decide,
    do_ls_dir_skips_dot_entries OPT_a fsEnv dirStat dirStat "d".toList "d".toList ⟨[], []⟩
      [".".toList, "..".toList, "a".toList, "b".toList] ["a".toList, "b".toList]
      rfl (List.Perm.refl _) (by decide) (by decide)⟩

end StatLs
